import Mathlib

/-!
Verification of the Tailscale GUI controller engine (`tailscale_gui.py`,
class `TailscaleController`) against its natural-language specification.

The daemon's JSON status snapshot is modelled by the inductive type `JVal`.
Python dictionaries are association lists whose iteration order is the key
insertion order (as in CPython).  Python operations that can raise are
modelled in the `Except String` monad; functions of the source that wrap
their body in `try/except` collapse any error to the documented fallback.
-/

inductive JVal where
  | null
  | bool (b : Bool)
  | num (n : Int)
  | str (s : String)
  | arr (elems : List JVal)
  | obj (fields : List (String × JVal))
deriving Repr

mutual

/-- Structural equality test on JSON values. -/
def beqJ : JVal → JVal → Bool
  | .null, .null => true
  | .bool a, .bool b => a == b
  | .num a, .num b => a == b
  | .str a, .str b => a == b
  | .arr a, .arr b => beqJList a b
  | .obj a, .obj b => beqJFields a b
  | _, _ => false

def beqJList : List JVal → List JVal → Bool
  | [], [] => true
  | x :: xs, y :: ys => beqJ x y && beqJList xs ys
  | _, _ => false

def beqJFields : List (String × JVal) → List (String × JVal) → Bool
  | [], [] => true
  | (k, x) :: xs, (l, y) :: ys => k == l && beqJ x y && beqJFields xs ys
  | _, _ => false

end

/-- Python `==` between JSON values.  `True`/`False` compare equal to the
numbers `1`/`0`; container equality is structural (key order of nested
dictionaries is ignored by Python but no modelled code compares nested
dictionaries for equality). -/
def pyEq (a b : JVal) : Bool :=
  match a, b with
  | .bool x, .num y => (if x then (1 : Int) else 0) == y
  | .num x, .bool y => x == (if y then (1 : Int) else 0)
  | _, _ => beqJ a b

/-- Python truthiness of a JSON value. -/
def truthy : JVal → Bool
  | .null => false
  | .bool b => b
  | .num n => n != 0
  | .str s => s ≠ ""
  | .arr l => !l.isEmpty
  | .obj f => !f.isEmpty

/-- Field lookup in a JSON object (`none` on non-objects). -/
def JVal.lookup : JVal → String → Option JVal
  | .obj fs, k => (fs.find? (fun p => p.1 == k)).map Prod.snd
  | _, _ => none

/-- Python `d.get(k, default)` on a value known to be a dictionary. -/
def getD (v : JVal) (k : String) (d : JVal) : JVal :=
  (v.lookup k).getD d

mutual

/-- Python `repr` of a JSON value (string escaping inside nested reprs is not
reproduced; no modelled code inspects the repr of a container). -/
def pyRepr : JVal → String
  | .null => "None"
  | .bool true => "True"
  | .bool false => "False"
  | .num n => toString n
  | .str s => "\x27" ++ s ++ "\x27"
  | .arr l => "[" ++ pyReprList l ++ "]"
  | .obj fs => "\x7b" ++ pyReprFields fs ++ "\x7d"

def pyReprList : List JVal → String
  | [] => ""
  | [x] => pyRepr x
  | x :: xs => pyRepr x ++ ", " ++ pyReprList xs

def pyReprFields : List (String × JVal) → String
  | [] => ""
  | [(k, x)] => "\x27" ++ k ++ "\x27: " ++ pyRepr x
  | (k, x) :: xs => "\x27" ++ k ++ "\x27: " ++ pyRepr x ++ ", " ++ pyReprFields xs

end

/-- Python `str` of a JSON value. -/
def pyStr : JVal → String
  | .str s => s
  | v => pyRepr v

def charsStartWith : List Char → List Char → Bool
  | _, [] => true
  | [], _ :: _ => false
  | c :: cs, p :: ps => c == p && charsStartWith cs ps

def charsContains : List Char → List Char → Bool
  | [], pat => pat.isEmpty
  | c :: cs, pat => charsStartWith (c :: cs) pat || charsContains cs pat

def charsSplitHead : List Char → List Char → List Char
  | [], _ => []
  | c :: cs, pat => if charsStartWith (c :: cs) pat then [] else c :: charsSplitHead cs pat

/-- Python `(s.split(sep))[0]` for a non-empty `sep`: the part of `s`
before the first occurrence of `sep`, or `s` itself when `sep` does not
occur. -/
def splitHead (s sep : String) : String :=
  String.mk (charsSplitHead s.data sep.data)

/-- Python substring test `pat in s`. -/
def strContains (s pat : String) : Bool :=
  charsContains s.data pat.data

def isSpaceCh (c : Char) : Bool :=
  c == ' ' || c == '\t' || c == '\n' || c == '\r' || c == '\x0b' || c == '\x0c'

def dropLeadingSpace : List Char → List Char
  | [] => []
  | c :: cs => if isSpaceCh c then dropLeadingSpace cs else c :: cs

/-- Python `s.strip()`. -/
def pyStrip (s : String) : String :=
  String.mk (dropLeadingSpace (dropLeadingSpace s.data.reverse).reverse)

/-- Python `s.lower()` (ASCII range; the classified daemon messages are
ASCII). -/
def pyLower (s : String) : String :=
  String.mk (s.data.map Char.toLower)

/-- Python `v[0]`: first element of a list (or first character of a string);
raises on other types or on empty lists/strings. -/
def index0 : JVal → Except String JVal
  | .arr (x :: _) => .ok x
  | .arr [] => .error "IndexError"
  | .str s =>
    match s.data with
    | c :: _ => .ok (.str (String.mk [c]))
    | [] => .error "IndexError"
  | _ => .error "TypeError"

/-- Python `v.get(k, d)`: raises `AttributeError` unless `v` is a dictionary. -/
def pyGet (v : JVal) (k : String) (d : JVal) : Except String JVal :=
  match v with
  | .obj _ => .ok (getD v k d)
  | _ => .error "AttributeError"

/-- Python `k in v` for a string key: key membership on dictionaries, element
membership on lists, substring test on strings, raises otherwise. -/
def pyContains (v : JVal) (k : String) : Except String Bool :=
  match v with
  | .obj fs => .ok (fs.any (fun p => p.1 == k))
  | .arr l => .ok (l.any (fun x => pyEq x (.str k)))
  | .str s => .ok (strContains s k)
  | _ => .error "TypeError"

/-- Python `v[k]` for a string key. -/
def pySubscript (v : JVal) (k : String) : Except String JVal :=
  match v with
  | .obj _ =>
    match v.lookup k with
    | some x => .ok x
    | none => .error "KeyError"
  | _ => .error "TypeError"

/-- Python `v.items()`. -/
def pyItems : JVal → Except String (List (String × JVal))
  | .obj fs => .ok fs
  | _ => .error "AttributeError"

/-- Python iteration `for x in v`: elements of a list, characters of a
string, keys of a dictionary; raises otherwise. -/
def pyIter : JVal → Except String (List JVal)
  | .arr l => .ok l
  | .str s => .ok (s.data.map (fun c => .str (String.mk [c])))
  | .obj fs => .ok (fs.map (fun p => .str p.1))
  | _ => .error "TypeError"

/-!  ### `get_status` and the connectivity classification  -/

/-- Outcome of running `tailscale status --json`: the command failed, its
stdout was not valid JSON, or it produced a parsed JSON document. -/
inductive StatusResp where
  | cmdError
  | badJSON
  | ok (v : JVal)
deriving Repr

/-- Embeds `TailscaleController.get_status`: `None` on a failed command or
malformed JSON, otherwise the parsed document. -/
def get_status : StatusResp → Option JVal
  | .cmdError => none
  | .badJSON => none
  | .ok v => some v

/-- Embeds `TailscaleController.is_connected`, applied to a `get_status` result. -/
def is_connected (st : Option JVal) : Bool :=
  match st with
  | none => false
  | some v =>
    if !truthy v then false
    else
      match v with
      | .obj _ =>
        pyEq (getD v "BackendState" (.str "")) (.str "Running")
          && truthy (getD v "HaveNodeKey" (.bool false))
          && pyEq (getD v "AuthURL" (.str "")) (.str "")
      | _ => false

/-- Embeds `TailscaleController.get_current_user`: hostname of the self device,
else the first label of its DNS name, else the literal `"Connected"`;
`None` when there is no usable snapshot or no `Self` entry (any internal
fault is absorbed by the `try/except` and also yields `None`). -/
def get_current_user (st : Option JVal) : Option JVal :=
  match st with
  | none => none
  | some v =>
    if !truthy v then none
    else
      match v with
      | .obj _ =>
        match v.lookup "Self" with
        | none => none
        | some self_info =>
          match self_info with
          | .obj _ =>
            let dns := getD self_info "DNSName" (.str "")
            let host := getD self_info "HostName" (.str "")
            if truthy host then some host
            else if truthy dns then
              match dns with
              | .str s => some (.str (splitHead s "."))
              | _ => none
            else some (.str "Connected")
          | _ => none
      | _ => none

/-!  ### `get_devices`

The source builds the device list without any `try/except`, so Python
exceptions raised on a wrongly-shaped snapshot propagate to the caller;
they are modelled as `Except.error`. -/

structure DeviceEntry where
  name : JVal
  ip : JVal
  online : JVal
  is_self : Bool
deriving Repr

/-- Python `info.get('TailscaleIPs', [d])[0] if info.get('TailscaleIPs') else d`,
the "first address or default" expression used for every device row. -/
def primaryIpExpr (info : JVal) (d : String) : Except String JVal := do
  let t ← pyGet info "TailscaleIPs" .null
  if truthy t then
    let l ← pyGet info "TailscaleIPs" (.arr [.str d])
    index0 l
  else
    pure (.str d)

def mkSelfDevice (info : JVal) : Except String DeviceEntry := do
  let name ← pyGet info "DNSName" (.str "Unknown")
  let ip ← primaryIpExpr info "Unknown"
  pure ⟨name, ip, .bool true, true⟩

def mkPeerDevice (info : JVal) : Except String DeviceEntry := do
  let name ← pyGet info "DNSName" (.str "Unknown")
  let ip ← primaryIpExpr info "Unknown"
  let online ← pyGet info "Online" (.bool false)
  pure ⟨name, ip, online, false⟩

def mkPeerDevices : List (String × JVal) → Except String (List DeviceEntry)
  | [] => .ok []
  | (_, info) :: rest => do
    let d ← mkPeerDevice info
    let ds ← mkPeerDevices rest
    pure (d :: ds)

/-- Embeds `TailscaleController.get_devices`, applied to a `get_status` result. -/
def get_devices (st : Option JVal) : Except String (List DeviceEntry) :=
  match st with
  | none => .ok []
  | some v =>
    if !truthy v then .ok []
    else do
      let hasSelf ← pyContains v "Self"
      let selfDevs ←
        if hasSelf then do
          let self_info ← pySubscript v "Self"
          let d ← mkSelfDevice self_info
          pure [d]
        else pure ([] : List DeviceEntry)
      let hasPeer ← pyContains v "Peer"
      let peerDevs ←
        if hasPeer then do
          let peers ← pySubscript v "Peer"
          let items ← pyItems peers
          mkPeerDevices items
        else pure ([] : List DeviceEntry)
      pure (selfDevs ++ peerDevs)

/-!  ### `get_available_exit_nodes`  -/

structure ExitNodeEntry where
  id : JVal
  name : JVal
  ip : JVal
  hostname : JVal
  is_self : Bool
  online : JVal
  can_be_exit_node : JVal
deriving Repr

/-- The eagerly evaluated default argument
`dns_name.split('.')[0] if dns_name else ''` of the `HostName` lookups. -/
def hostNameDefault (dns : JVal) : Except String JVal :=
  if truthy dns then
    match dns with
    | .str s => .ok (.str (splitHead s "."))
    | _ => .error "AttributeError"
  else .ok (.str "")

def mkSelfExitEntries (info : JVal) : Except String (List ExitNodeEntry) := do
  let dns ← pyGet info "DNSName" (.str "")
  let ip ← primaryIpExpr info ""
  let node_id ← pyGet info "ID" (.str "")
  let can ← pyGet info "ExitNodeOption" (.bool false)
  if truthy dns && truthy ip && truthy can then do
    let hd ← hostNameDefault dns
    let host ← pyGet info "HostName" hd
    pure [⟨node_id, dns, ip, host, true, .bool true, can⟩]
  else
    pure []

def mkPeerExitEntries : List (String × JVal) → Except String (List ExitNodeEntry)
  | [] => .ok []
  | (k, info) :: rest => do
    let dns ← pyGet info "DNSName" (.str "")
    let ip ← primaryIpExpr info ""
    let can ← pyGet info "ExitNodeOption" (.bool false)
    let here ←
      if truthy dns && truthy ip && truthy can then do
        let hd ← hostNameDefault dns
        let host ← pyGet info "HostName" hd
        let online ← pyGet info "Online" (.bool false)
        pure [ExitNodeEntry.mk (.str k) dns ip host false online can]
      else
        pure []
    let rest' ← mkPeerExitEntries rest
    pure (here ++ rest')

/-- The unsorted candidate list built by `get_available_exit_nodes`. -/
def exitNodesRaw (v : JVal) : Except String (List ExitNodeEntry) := do
  let hasSelf ← pyContains v "Self"
  let selfEs ←
    if hasSelf then do
      let self_info ← pySubscript v "Self"
      mkSelfExitEntries self_info
    else pure ([] : List ExitNodeEntry)
  let hasPeer ← pyContains v "Peer"
  let peerEs ←
    if hasPeer then do
      let peers ← pySubscript v "Peer"
      let items ← pyItems peers
      mkPeerExitEntries items
    else pure ([] : List ExitNodeEntry)
  pure (selfEs ++ peerEs)

/-- Code-point comparison of strings, as Python compares them. -/
def charListLe : List Char → List Char → Bool
  | [], _ => true
  | _ :: _, [] => false
  | a :: as, b :: bs =>
    if a.toNat < b.toNat then true
    else if b.toNat < a.toNat then false
    else charListLe as bs

def strLe (a b : String) : Bool :=
  charListLe a.data b.data

def strOf : JVal → String
  | .str s => s
  | _ => ""

def intOf : JVal → Int
  | .num n => n
  | .bool true => 1
  | .bool false => 0
  | _ => 0

def isStrKey : JVal → Bool
  | .str _ => true
  | _ => false

def isNumKey : JVal → Bool
  | .num _ => true
  | .bool _ => true
  | _ => false

/-- Stable insertion of `x` into `l`: `x` is placed before the first
element it compares `le` to, hence after all earlier elements with an equal
key. -/
def stableIns {α : Type} (le : α → α → Bool) (x : α) : List α → List α
  | [] => [x]
  | y :: ys => if le x y then x :: y :: ys else y :: stableIns le x ys

/-- Stable ascending sort (insertion sort), producing the same list as any
stable comparison sort — in particular Python's. -/
def pySortList {α : Type} (le : α → α → Bool) : List α → List α
  | [] => []
  | x :: xs => stableIns le x (pySortList le xs)

/-- Python `exit_nodes.sort(key=lambda x: x.get('hostname', ''))`.  Python's sort
performs no comparison on lists of length ≤ 1; otherwise keys of mixed
(or unorderable) types always reach an unsupported comparison of two
adjacent keys and raise `TypeError`. -/
def pySortByHostname (l : List ExitNodeEntry) : Except String (List ExitNodeEntry) :=
  if l.length ≤ 1 then .ok l
  else if l.all (fun e => isStrKey e.hostname) then
    .ok (pySortList (fun a b => strLe (strOf a.hostname) (strOf b.hostname)) l)
  else if l.all (fun e => isNumKey e.hostname) then
    .ok (pySortList (fun a b => intOf a.hostname ≤ intOf b.hostname) l)
  else .error "TypeError"

/-- Embeds `TailscaleController.get_available_exit_nodes`: any internal exception
is absorbed by the `try/except` and yields the empty list. -/
def get_available_exit_nodes (st : Option JVal) : List ExitNodeEntry :=
  match st with
  | none => []
  | some v =>
    if !truthy v then []
    else
      match (do pySortByHostname (← exitNodesRaw v)) with
      | .ok l => l
      | .error _ => []

/-!  ### `get_current_exit_node`  -/

structure ResolvedExitNode where
  id : String
  name : JVal
  ip : JVal
  hostname : JVal
deriving Repr

/-- The exit-node identifier extraction performed at the top of
`get_current_exit_node`: root `ExitNodeStatus` (embedded `ID`, or the whole
value stringified when it is not a dictionary), then root `ExitNodeID`,
then — only when the snapshot has a `Self` entry and nothing was found yet —
`Self.ExitNodeID` and finally `Self.ExitNodeStatus`.  When `Self` is not a
dictionary and its fields have to be read, Python raises. -/
def extractId (v : JVal) : Except String JVal :=
  let ens := getD v "ExitNodeStatus" (.obj [])
  let id1 : JVal :=
    if truthy ens then
      match ens with
      | .obj _ => getD ens "ID" (.str "")
      | _ => .str (pyStr ens)
    else .str ""
  let id2 := if truthy id1 then id1 else getD v "ExitNodeID" (.str "")
  match v.lookup "Self" with
  | none => .ok id2
  | some self_info =>
    if truthy id2 then .ok id2
    else
      match self_info with
      | .obj _ =>
        let id3 := getD self_info "ExitNodeID" (.str "")
        if truthy id3 then .ok id3
        else
          let ses := getD self_info "ExitNodeStatus" (.obj [])
          if truthy ses then
            match ses with
            | .obj _ =>
              if (ses.lookup "ID").isSome then .ok (getD ses "ID" (.str ""))
              else .ok (.str (pyStr ses))
            | _ => .ok (.str (pyStr ses))
          else .ok id3
      | _ => .error "AttributeError"

/-- The `exit_node_ip` computed from the root `ExitNodeStatus` record:
first `TailscaleIPs` entry with any `/suffix` stripped (`None` when
unavailable). -/
def exitNodeIp (ens : JVal) : Except String (Option String) :=
  match ens with
  | .obj _ =>
    if truthy ens then
      let tips := getD ens "TailscaleIPs" (.arr [])
      if truthy tips then do
        let x ← index0 tips
        match x with
        | .str s => pure (some (splitHead s "/"))
        | _ => pure (some (pyStr x))
      else pure none
    else pure none
  | _ => pure none

/-- Truthiness of the Python value `exit_node_ip` (`None` or a string). -/
def hintTruthy : Option String → Bool
  | none => false
  | some s => s ≠ ""

/-- The three-rule match test applied to one peer inside the loop of
`get_current_exit_node`. -/
def peerMatched (enid : JVal) (enip : Option String) (k : String) (info : JVal) :
    Except String Bool :=
  if k == pyStr enid || pyEq (.str k) enid then pure true
  else do
    let hasID ← pyContains info "ID"
    let idMatch ←
      if hasID then do
        let idv ← pyGet info "ID" (.str "")
        pure (pyStr idv == pyStr enid)
      else pure false
    if idMatch then pure true
    else if hintTruthy enip then do
      let ips ← pyGet info "TailscaleIPs" (.arr [])
      let l ← pyIter ips
      pure (l.any (fun x => splitHead (pyStr x) "/" == enip.getD ""))
    else pure false

def findMatch (enid : JVal) (enip : Option String) :
    List (String × JVal) → Except String (Option JVal)
  | [] => .ok none
  | (k, info) :: rest => do
    let m ← peerMatched enid enip k info
    if m then pure (some info) else findMatch enid enip rest

/-- The result record built for a matched device (peer and self branches of
the source build it with the same expressions). -/
def mkResolved (enid : JVal) (enip : Option String) (info : JVal) :
    Except String ResolvedExitNode := do
  let dns ← pyGet info "DNSName" (.str "")
  let ip0 ←
    if hintTruthy enip then pure (JVal.str (enip.getD ""))
    else primaryIpExpr info ""
  let ip1 :=
    if truthy ip0 && strContains (pyStr ip0) "/" then JVal.str (splitHead (pyStr ip0) "/")
    else ip0
  let host0 ← pyGet info "HostName" (.str "")
  let host ←
    if !truthy host0 && truthy dns then
      match dns with
      | .str s => pure (JVal.str (splitHead s "."))
      | _ => .error "AttributeError"
    else pure host0
  pure ⟨pyStr enid, dns, ip1, host⟩

/-- Body of `get_current_exit_node` on a truthy snapshot, before the
`try/except` collapses errors to `None`. -/
def goCEN (v : JVal) : Except String (Option ResolvedExitNode) :=
  match v with
  | .obj _ => do
    let enid ← extractId v
    match v.lookup "Self" with
    | none => pure none
    | some self_info =>
      if !truthy enid then pure none
      else do
        let enip ← exitNodeIp (getD v "ExitNodeStatus" (.obj []))
        let pm ←
          match v.lookup "Peer" with
          | some peers => do
            let items ← pyItems peers
            findMatch enid enip items
          | none => pure none
        match pm with
        | some info => do
          let r ← mkResolved enid enip info
          pure (some r)
        | none => do
          let selfId ← pyGet self_info "ID" (.str "")
          if pyStr selfId == pyStr enid then do
            let r ← mkResolved enid enip self_info
            pure (some r)
          else pure none
  | _ => .error "AttributeError"

/-- Embeds `TailscaleController.get_current_exit_node`: `None` on a missing or
falsy snapshot and on any internal exception. -/
def get_current_exit_node (st : Option JVal) : Option ResolvedExitNode :=
  match st with
  | none => none
  | some v =>
    if !truthy v then none
    else
      match goCEN v with
      | .ok r => r
      | .error _ => none

/-!  ### Profile nickname store

The store is the JSON parse outcome of `profiles.json`; I/O itself is
outside the engine and writes are modelled as succeeding (the source
returns `False` on an I/O failure, a path with no observable state). -/

inductive FileState where
  | missing
  | unreadable
  | content (v : JVal)
deriving Repr

/-- Embeds `TailscaleController.load_profiles`. -/
def load_profiles : FileState → List JVal
  | .content (.arr l) => l
  | _ => []

/-- Embeds `TailscaleController.save_profiles`. -/
def save_profiles (l : List JVal) : FileState × Bool :=
  (.content (.arr l), true)

/-- Python `list.remove`: drop the first element comparing equal. -/
def pyRemoveFirst : List JVal → JVal → List JVal
  | [], _ => []
  | x :: xs, t => if pyEq x t then xs else x :: pyRemoveFirst xs t

/-- Embeds `TailscaleController.add_profile`. -/
def add_profile (fs : FileState) (nickname : String) : FileState × Bool :=
  let profiles := load_profiles fs
  if profiles.any (fun x => pyEq x (.str nickname)) then (fs, false)
  else save_profiles (profiles ++ [.str nickname])

/-- Embeds `TailscaleController.remove_profile`. -/
def remove_profile (fs : FileState) (nickname : String) : FileState × Bool :=
  let profiles := load_profiles fs
  if profiles.any (fun x => pyEq x (.str nickname)) then
    save_profiles (pyRemoveFirst profiles (.str nickname))
  else (fs, false)

/-!  ### Session controller

Each daemon command's observable outcome (exit code and captured output)
is an input of the model; an operation's result is paired with the list of
state-changing `tailscale` commands it issued. -/

structure CmdOut where
  exitCode : Int
  out : String
  err : String
deriving Repr

inductive Cmd where
  | up
  | down
  | switchPlain (profile : String)
  | switchSudo (profile : String)
  | setExit (target : String)
  | setExitClear
deriving Repr, DecidableEq

structure Env where
  daemonRunning : Bool
  statusResp : StatusResp
  upImmediateExit : Option CmdOut
  downResult : CmdOut
  switchPlainResult : CmdOut
  switchSudoNResult : CmdOut
  setExitResult : CmdOut
  setExitClearResult : CmdOut
  username : String
deriving Repr

def daemonNotRunningMsg : String :=
  "Tailscale daemon is not running. Please start it with: sudo systemctl start tailscaled"

def operatorHintMsg (username : String) : String :=
  "Permission denied.\n\nIf you haven\x27t run it yet, execute:\nsudo tailscale set --operator="
    ++ username
    ++ "\n\nIf you already ran that command, you MUST restart the Tailscale service:\nsudo systemctl restart tailscaled\n\nThen try logging in again."

/-- Embeds `TailscaleController._do_login`: launch `tailscale up` detached; an exit
within the grace window is classified as a failure, otherwise the launch
itself is reported as success. -/
def do_login (env : Env) : (Bool × String) × List Cmd :=
  match env.upImmediateExit with
  | none =>
    ((true, "Connecting to Tailscale. Please complete authentication in your browser if prompted."),
      [Cmd.up])
  | some o =>
    let stderrMsg := pyStrip o.err
    let error_msg :=
      if o.err ≠ "" then stderrMsg
      else
        if o.out ≠ "" then
          let stdout_msg := pyStrip o.out
          if strContains (pyLower stdout_msg) "denied" || strContains (pyLower stdout_msg) "access" then
            stdout_msg
          else ""
        else ""
    if error_msg ≠ "" then
      let el := pyLower error_msg
      if strContains el "access denied" || strContains el "profiles access denied"
          || strContains el "permission denied" || strContains el "operator" then
        ((false, operatorHintMsg env.username), [Cmd.up])
      else
        ((false, "Connection failed: " ++ error_msg), [Cmd.up])
    else
      ((false, "Connection process exited unexpectedly. Try running \x27tailscale up\x27 in a terminal to see the error."),
        [Cmd.up])

/-- The \"already connected\" message, parameterized by `get_current_user`. -/
def alreadyConnectedMsg (u : Option JVal) : String :=
  match u with
  | some x =>
    if truthy x then
      "Already connected as " ++ pyStr x ++ ". Click \x27Switch Account\x27 to change accounts."
    else
      "Already connected to Tailscale. Click \x27Switch Account\x27 to change accounts."
  | none => "Already connected to Tailscale. Click \x27Switch Account\x27 to change accounts."

/-- Embeds `TailscaleController.login`. -/
def login (env : Env) : (Bool × String) × List Cmd :=
  if !env.daemonRunning then ((false, daemonNotRunningMsg), [])
  else
    let st := get_status env.statusResp
    if is_connected st then
      ((true, alreadyConnectedMsg (get_current_user st)), [])
    else do_login env

/-- Embeds `TailscaleController.logout`: issues `tailscale down` unconditionally.
A non-zero exit raises `CalledProcessError` whose captured stderr (bytes)
is interpolated into the failure message. -/
def logout (env : Env) : (Bool × String) × List Cmd :=
  if env.downResult.exitCode == 0 then
    ((true, "Tailscale disconnected successfully"), [Cmd.down])
  else
    ((false, "Error disconnecting: b\x27" ++ env.downResult.err ++ "\x27"), [Cmd.down])

/-- Embeds `TailscaleController.switch_to_profile`: unprivileged attempt, then a
passwordless `sudo -n` retry, then the `(None, "sudo_required")` outcome. -/
def switch_to_profile (env : Env) (profile : String) : (Option Bool × String) × List Cmd :=
  if !env.daemonRunning then ((some false, daemonNotRunningMsg), [])
  else
    let r := env.switchPlainResult
    if r.exitCode == 0 then
      ((some true, "Switched to profile: " ++ profile), [Cmd.switchPlain profile])
    else
      let s := env.switchSudoNResult
      if s.exitCode == 0 then
        ((some true, "Switched to profile: " ++ profile),
          [Cmd.switchPlain profile, Cmd.switchSudo profile])
      else
        ((none, "sudo_required"), [Cmd.switchPlain profile, Cmd.switchSudo profile])

/-- Embeds `TailscaleController.set_exit_node`: `None` or an empty name selects the
clearing form of the command. -/
def set_exit_node (env : Env) (target : Option String) : (Bool × String) × List Cmd :=
  if !env.daemonRunning then ((false, daemonNotRunningMsg), [])
  else
    match target with
    | some name =>
      if name ≠ "" then
        let r := env.setExitResult
        if r.exitCode == 0 then
          ((true, "Exit node set to: " ++ name), [Cmd.setExit name])
        else
          let e := if pyStrip r.err ≠ "" then pyStrip r.err else pyStrip r.out
          ((false, "Failed to set exit node: " ++ e), [Cmd.setExit name])
      else
        let r := env.setExitClearResult
        if r.exitCode == 0 then ((true, "Exit node cleared"), [Cmd.setExitClear])
        else
          let e := if pyStrip r.err ≠ "" then pyStrip r.err else pyStrip r.out
          ((false, "Failed to clear exit node: " ++ e), [Cmd.setExitClear])
    | none =>
      let r := env.setExitClearResult
      if r.exitCode == 0 then ((true, "Exit node cleared"), [Cmd.setExitClear])
      else
        let e := if pyStrip r.err ≠ "" then pyStrip r.err else pyStrip r.out
        ((false, "Failed to clear exit node: " ++ e), [Cmd.setExitClear])

/-!  ### Well-typed snapshots

`wtStatus` states that the fields the engine reads have the types the
daemon's documented schema gives them (strings for names and identifiers,
booleans for flags, arrays of strings for address lists).  The safety-shaped
claims are unconditional; the functional claims quantify over snapshots of
this documented shape. -/

def isObj : JVal → Bool
  | .obj _ => true
  | _ => false

def isNonemptyStr : JVal → Bool
  | .str s => s ≠ ""
  | _ => false

def optStrField : Option JVal → Bool
  | none => true
  | some (.str _) => true
  | _ => false

def optBoolField : Option JVal → Bool
  | none => true
  | some (.bool _) => true
  | _ => false

def optStrArrField : Option JVal → Bool
  | none => true
  | some (.arr l) => l.all isStrKey
  | _ => false

def wtENS (v : JVal) : Bool :=
  match v with
  | .obj _ => optStrField (v.lookup "ID") && optStrArrField (v.lookup "TailscaleIPs")
  | _ => false

def optENSField : Option JVal → Bool
  | none => true
  | some e => wtENS e

def wtDevice (d : JVal) : Bool :=
  match d with
  | .obj _ =>
    optStrField (d.lookup "DNSName") && optStrField (d.lookup "HostName")
      && optStrField (d.lookup "ID") && optStrArrField (d.lookup "TailscaleIPs")
      && optBoolField (d.lookup "Online") && optBoolField (d.lookup "ExitNodeOption")
      && optStrField (d.lookup "ExitNodeID") && optENSField (d.lookup "ExitNodeStatus")
  | _ => false

def optDeviceField : Option JVal → Bool
  | none => true
  | some d => wtDevice d

def wtPeers : Option JVal → Bool
  | none => true
  | some (.obj ps) => ps.all (fun p => wtDevice p.2)
  | _ => false

def wtStatus (v : JVal) : Bool :=
  match v with
  | .obj _ =>
    optStrField (v.lookup "BackendState") && optBoolField (v.lookup "HaveNodeKey")
      && optStrField (v.lookup "AuthURL") && optStrField (v.lookup "ExitNodeID")
      && optENSField (v.lookup "ExitNodeStatus") && optDeviceField (v.lookup "Self")
      && wtPeers (v.lookup "Peer")
  | _ => false

/-- Typing of the `HaveNodeKey` field alone (boolean or absent), the only
shape assumption the connectivity classification needs. -/
def hnkTyped : Option JVal → Bool
  | none => true
  | some v => optBoolField (v.lookup "HaveNodeKey")

/-!  ### Definitions following the specification's words

These are the second, spec-side definitions for the refinement claims; the
theorems below compare them with the functions translated from the source. -/

/-- Primary address of a device per the spec: first element of the address
list, or the empty string. -/
def specPrimary (info : JVal) : JVal :=
  match info.lookup "TailscaleIPs" with
  | some (.arr (x :: _)) => x
  | _ => .str ""

/-- Derived short hostname per the spec: the declared host name, else the
DNS name up to its first dot. -/
def specHost (info : JVal) : JVal :=
  let dns := getD info "DNSName" (.str "")
  getD info "HostName" (if truthy dns then .str (splitHead (strOf dns) ".") else .str "")

def specEntry (self? : Bool) (idv onl : JVal) (info : JVal) : ExitNodeEntry :=
  ⟨idv, getD info "DNSName" (.str ""), specPrimary info, specHost info, self?, onl,
    getD info "ExitNodeOption" (.bool false)⟩

/-- All devices of a snapshot (self first, then peers in snapshot order),
rendered as exit-node rows. -/
def specDeviceEntries (v : JVal) : List ExitNodeEntry :=
  (match v.lookup "Self" with
   | some s => [specEntry true (getD s "ID" (.str "")) (.bool true) s]
   | none => []) ++
  (match v.lookup "Peer" with
   | some (.obj ps) => ps.map (fun p => specEntry false (.str p.1) (getD p.2 "Online" (.bool false)) p.2)
   | _ => [])

/-- The filter of the `listExitNodeCandidates` contract: capability flag
true, non-empty DNS name, non-empty primary address. -/
def specCandidatePred (e : ExitNodeEntry) : Bool :=
  (match e.can_be_exit_node with | .bool b => b | _ => false)
    && isNonemptyStr e.name && isNonemptyStr e.ip

def claimCandidates (v : JVal) : List ExitNodeEntry :=
  (specDeviceEntries v).filter specCandidatePred

/-- Sort key order of the candidate list (code points, ascending). -/
def hostLe (a b : ExitNodeEntry) : Bool :=
  strLe (strOf a.hostname) (strOf b.hostname)

/-- Address hint carried by the exit-node assignment: first address of the
root exit-node-status record, `/suffix` stripped, when non-empty. -/
def specHint (v : JVal) : Option String :=
  match v.lookup "ExitNodeStatus" with
  | some (.obj fs) =>
    (match getD (.obj fs) "TailscaleIPs" (.arr []) with
     | .arr (x :: _) =>
       (let s := splitHead (pyStr x) "/"
        if s ≠ "" then some s else none)
     | _ => none)
  | _ => none

/-- The matching cascade of the spec, applied to one peer: (1) peer
identifier, (2) the peer's declared `ID` field, (3) the address hint
against the peer's normalized address list. -/
def specRuleMatch (enidS : String) (hint : Option String) (k : String) (info : JVal) : Bool :=
  k == enidS
    || (match info.lookup "ID" with
        | some x => pyStr x == enidS
        | none => false)
    || (match hint with
        | some h =>
          (match info.lookup "TailscaleIPs" with
           | some (.arr l) => l.any (fun x => splitHead (pyStr x) "/" == h)
           | _ => false)
        | none => false)

/-- The resolved record for a matched device: assignment identifier, DNS
name, primary address (hint preferred, normalized), short hostname. -/
def specMkNode (enidS : String) (hint : Option String) (info : JVal) : ResolvedExitNode :=
  let dns := getD info "DNSName" (.str "")
  let base : String :=
    match hint with
    | some h => h
    | none => strOf (specPrimary info)
  let host0 := getD info "HostName" (.str "")
  let host :=
    if !truthy host0 && truthy dns then JVal.str (splitHead (strOf dns) ".")
    else host0
  ⟨enidS, dns, .str (splitHead base "/"), host⟩

/-- Exit-node resolution per the spec: first matching peer in snapshot
order wins, self is checked last by identifier equality only, and no match
is `none`. -/
def specResolve (v : JVal) : Option ResolvedExitNode :=
  match extractId v with
  | .error _ => none
  | .ok enid =>
    if !truthy enid then none
    else
      let enidS := pyStr enid
      let hint := specHint v
      let peers := match v.lookup "Peer" with | some (.obj ps) => ps | _ => []
      match peers.find? (fun p => specRuleMatch enidS hint p.1 p.2) with
      | some p => some (specMkNode enidS hint p.2)
      | none =>
        match v.lookup "Self" with
        | some self_info =>
          if pyStr (getD self_info "ID" (.str "")) == enidS then
            some (specMkNode enidS hint self_info)
          else none
        | none => none

/-- Source (1) of the assignment-identifier cascade: the root
exit-node-status record's embedded identifier. -/
def rootStatusId (v : JVal) : JVal :=
  let ens := getD v "ExitNodeStatus" (.obj [])
  if truthy ens then
    match ens with
    | .obj _ => getD ens "ID" (.str "")
    | _ => .str (pyStr ens)
  else .str ""

/-- Source (2) of the cascade: the root plain exit-node-identifier field. -/
def rootExitNodeId (v : JVal) : JVal :=
  getD v "ExitNodeID" (.str "")

/-- Source (3) of the cascade: the self device's exit-node-identifier
field, else its embedded exit-node-status record. -/
def selfExitNodeIdSrc (self_info : JVal) : JVal :=
  let a := getD self_info "ExitNodeID" (.str "")
  if truthy a then a
  else
    let ses := getD self_info "ExitNodeStatus" (.obj [])
    if truthy ses then
      match ses with
      | .obj _ =>
        if (ses.lookup "ID").isSome then getD ses "ID" (.str "")
        else .str (pyStr ses)
      | _ => .str (pyStr ses)
    else a

/-- Number of occurrences of the nickname `n` in a stored list, counted the
way Python membership compares (`==`). -/
def profileCount (l : List JVal) (n : String) : Nat :=
  (l.filter (fun x => pyEq x (.str n))).length

/-!  ### Concrete inputs used by witnesses and counterexamples  -/

/-- Scenario A of the spec: running backend, identity key, no pending
auth URL. -/
def scenarioA : JVal :=
  .obj [("BackendState", .str "Running"), ("HaveNodeKey", .bool true), ("AuthURL", .str "")]

/-- A wrongly-shaped snapshot whose `Self` entry is a number. -/
def badSelfSnap : JVal := .obj [("Self", .num 5)]

/-- A snapshot with an exit-node assignment and a matching peer but no
`Self` record. -/
def noSelfSnap : JVal :=
  .obj [("ExitNodeID", .str "p1"),
    ("Peer", .obj [("p1", .obj [("DNSName", .str "a.ts.net"),
      ("TailscaleIPs", .arr [.str "100.64.0.7/32"]), ("HostName", .str "a")])])]

/-- Scenario C of the spec: the assignment identifier matches no peer, the
address hint `100.64.0.5` matches a peer address `100.64.0.5/32`. -/
def snapC : JVal :=
  .obj [("ExitNodeStatus", .obj [("ID", .str "stable1"), ("TailscaleIPs", .arr [.str "100.64.0.5/32"])]),
    ("Self", .obj [("ID", .str "self1")]),
    ("Peer", .obj [("pX", .obj [("ID", .str "other"), ("DNSName", .str "pc.ts.net"),
      ("TailscaleIPs", .arr [.str "100.64.0.5/32"]), ("HostName", .str "pc")])])]

/-- A snapshot with three peers whose hostnames arrive unsorted and one
non-candidate peer. -/
def exSnap : JVal :=
  .obj [
    ("Self", .obj [("DNSName", .str "me.x.ts.net"), ("TailscaleIPs", .arr [.str "100.0.0.1"]),
      ("ID", .str "s1"), ("ExitNodeOption", .bool true), ("HostName", .str "zme")]),
    ("Peer", .obj [
      ("p1", .obj [("DNSName", .str "bb.x.ts.net"), ("TailscaleIPs", .arr [.str "100.0.0.2"]),
        ("ExitNodeOption", .bool true), ("HostName", .str "bb")]),
      ("p2", .obj [("DNSName", .str "aa.x.ts.net"), ("TailscaleIPs", .arr [.str "100.0.0.3"]),
        ("ExitNodeOption", .bool true)]),
      ("p3", .obj [("DNSName", .str "cc.x.ts.net"), ("TailscaleIPs", .arr [.str "100.0.0.4"]),
        ("ExitNodeOption", .bool false)])])]

/-- A snapshot whose only exit-node information sits on the self device. -/
def selfEidSnap : JVal :=
  .obj [("Self", .obj [("ExitNodeID", .str "se1"), ("ID", .str "s0")])]

/-- An environment in which the daemon is reachable and the snapshot is
classified connected. -/
def envConn : Env :=
  ⟨true,
    .ok (.obj [("BackendState", .str "Running"), ("HaveNodeKey", .bool true), ("AuthURL", .str ""),
      ("Self", .obj [("HostName", .str "mybox")])]),
    none, ⟨0, "", ""⟩, ⟨0, "", ""⟩, ⟨0, "", ""⟩, ⟨0, "", ""⟩, ⟨0, "", ""⟩, "u"⟩

/-- An environment in which the daemon is not reachable and every command
fails. -/
def envDown : Env :=
  ⟨false, .cmdError, none, ⟨1, "", ""⟩, ⟨1, "", ""⟩, ⟨1, "", ""⟩, ⟨1, "", ""⟩, ⟨1, "", ""⟩, "u"⟩

/-- An environment in which the daemon is reachable but both profile-switch
attempts exit non-zero. -/
def envEsc : Env :=
  ⟨true, .cmdError, none, ⟨0, "", ""⟩, ⟨1, "", "denied"⟩, ⟨1, "", "denied"⟩, ⟨0, "", ""⟩,
    ⟨0, "", ""⟩, "u"⟩

/-!  ### Helper lemmas  -/

theorem pyEq_str_iff (x : JVal) (t : String) : pyEq x (.str t) = true ↔ x = .str t := by
  cases x <;> simp [pyEq, beqJ]

theorem lookup_obj_any (fs : List (String × JVal)) (k : String) :
    (fs.any (fun p => p.1 == k)) = (JVal.lookup (.obj fs) k).isSome := by
  induction fs with
  | nil => rfl
  | cons p ps ih =>
    by_cases h : p.1 = k
    · simp [JVal.lookup, List.find?, h]
    · have h' : (p.1 == k) = false := by simpa using h
      simpa [JVal.lookup, List.find?, h'] using ih

theorem truthy_of_lookup_some {v : JVal} {k : String} {x : JVal}
    (h : v.lookup k = some x) : truthy v = true := by
  cases v <;> simp [JVal.lookup] at h
  rename_i fs
  cases fs with
  | nil => simp [List.find?] at h
  | cons p ps => simp [truthy]

theorem any_iff_filter_pos {α : Type} (p : α → Bool) (l : List α) :
    l.any p = true ↔ 0 < (l.filter p).length := by
  induction l with
  | nil => simp
  | cons x xs ih =>
    by_cases h : p x = true
    · simp [List.filter_cons, h]
    · have h' : p x = false := by simpa using h
      simp [List.filter_cons, h', ih]

theorem is_connected_some_iff (v : JVal) (h : optBoolField (v.lookup "HaveNodeKey") = true) :
    is_connected (some v) = true ↔
      (getD v "BackendState" (.str "") = .str "Running" ∧
        v.lookup "HaveNodeKey" = some (.bool true) ∧
        getD v "AuthURL" (.str "") = .str "") := by
  cases v with
  | obj fs =>
    cases fs with
    | nil => simp [is_connected, truthy, getD, JVal.lookup, List.find?]
    | cons p ps =>
      simp only [is_connected, truthy, List.isEmpty_cons, Bool.not_false, if_true,
        Bool.and_eq_true, pyEq_str_iff]
      cases hl : JVal.lookup (.obj (p :: ps)) "HaveNodeKey" with
      | none => simp [getD, hl, truthy]
      | some x =>
        rw [hl] at h
        cases x <;> simp_all [optBoolField, getD, truthy, pyEq_str_iff, and_assoc]
  | null => simp [is_connected, getD, JVal.lookup]
  | bool b => cases b <;> simp [is_connected, getD, JVal.lookup, truthy]
  | num n => simp [is_connected, getD, JVal.lookup]
  | str s => by_cases h : s = "" <;> simp [is_connected, getD, JVal.lookup, truthy, h]
  | arr l => simp [is_connected, getD, JVal.lookup]

/-- C1: the connectivity classification is true exactly when the snapshot
exists, its `BackendState` is `"Running"`, its `HaveNodeKey` flag is true
and its `AuthURL` is empty; a missing or unparseable snapshot is never
classified connected. -/
theorem c1_is_connected_iff (r : StatusResp)
    (h : hnkTyped (get_status r) = true) :
    is_connected (get_status r) = true ↔
      ∃ v, get_status r = some v ∧
        getD v "BackendState" (.str "") = .str "Running" ∧
        v.lookup "HaveNodeKey" = some (.bool true) ∧
        getD v "AuthURL" (.str "") = .str "" := by
  cases r with
  | cmdError => simp [get_status, is_connected]
  | badJSON => simp [get_status, is_connected]
  | ok v =>
    rw [show get_status (.ok v) = some v from rfl,
      is_connected_some_iff v (by simpa [hnkTyped, get_status] using h)]
    constructor
    · rintro ⟨a, b, c⟩
      exact ⟨v, rfl, a, b, c⟩
    · rintro ⟨v', hv, a, b, c⟩
      injection hv with hv
      subst hv
      exact ⟨a, b, c⟩

theorem c1_witness :
    hnkTyped (get_status (.ok scenarioA)) = true ∧
    is_connected (get_status (.ok scenarioA)) = true ∧
    (is_connected (get_status (.ok scenarioA)) = true ↔
      ∃ v, get_status (.ok scenarioA) = some v ∧
        getD v "BackendState" (.str "") = .str "Running" ∧
        v.lookup "HaveNodeKey" = some (.bool true) ∧
        getD v "AuthURL" (.str "") = .str "") :=
  ⟨rfl, rfl, c1_is_connected_iff (.ok scenarioA) rfl⟩

/-- C2: the claim that `get_devices` never faults fails on the code: a
snapshot whose `Self` entry is not a dictionary makes `get_devices` raise
an unhandled `AttributeError` (there is no `try/except` in it), while
malformed JSON in `get_status` does degrade to the no-status result. -/
theorem c2_get_devices_fault :
    get_status .badJSON = none ∧
    get_devices (get_status .badJSON) = .ok [] ∧
    get_devices (some badSelfSnap) = .error "AttributeError" :=
  ⟨rfl, rfl, rfl⟩

/-- C5: the claim that every mutating operation checks daemon reachability
fails on `logout`, which issues the `down` command without any daemon
check: with the daemon unreachable it still launches `tailscale down` and
reports the command's own failure instead of the daemon-unavailable
outcome. -/
theorem c5_counterexample :
    envDown.daemonRunning = false ∧
    logout envDown = ((false, "Error disconnecting: b\x27\x27"), [Cmd.down]) :=
  ⟨rfl, rfl⟩

/-- C5 (amended): `login`, `switch_to_profile` and `set_exit_node` check
daemon reachability first and short-circuit with the daemon-unavailable
outcome before issuing any daemon call; `logout` issues the disconnect
command unconditionally. -/
theorem c5_daemon_precondition (env : Env) (p : String) (t : Option String) :
    (env.daemonRunning = false →
      login env = ((false, daemonNotRunningMsg), []) ∧
      switch_to_profile env p = ((some false, daemonNotRunningMsg), []) ∧
      set_exit_node env t = ((false, daemonNotRunningMsg), [])) ∧
    (logout env).2 = [Cmd.down] := by
  constructor
  · intro h
    refine ⟨?_, ?_, ?_⟩ <;> simp [login, switch_to_profile, set_exit_node, h]
  · by_cases h : (env.downResult.exitCode == 0) = true <;> simp [logout, h]

theorem c5_witness :
    envDown.daemonRunning = false ∧
    login envDown = ((false, daemonNotRunningMsg), []) ∧
    switch_to_profile envDown "work" = ((some false, daemonNotRunningMsg), []) ∧
    set_exit_node envDown (some "node-a") = ((false, daemonNotRunningMsg), []) ∧
    (logout envDown).2 = [Cmd.down] :=
  ⟨rfl, ((c5_daemon_precondition envDown "work" (some "node-a")).1 rfl).1,
    ((c5_daemon_precondition envDown "work" (some "node-a")).1 rfl).2.1,
    ((c5_daemon_precondition envDown "work" (some "node-a")).1 rfl).2.2,
    (c5_daemon_precondition envDown "work" (some "node-a")).2⟩

/-- C7: with the daemon reachable and the snapshot already classified
connected, `login` succeeds with the already-connected result built from
the current device label and issues no daemon mutation. -/
theorem c7_login_idempotent (env : Env)
    (hd : env.daemonRunning = true)
    (hc : is_connected (get_status env.statusResp) = true) :
    login env =
      ((true, alreadyConnectedMsg (get_current_user (get_status env.statusResp))), []) := by
  simp [login, hd, hc]

theorem c7_witness :
    envConn.daemonRunning = true ∧
    is_connected (get_status envConn.statusResp) = true ∧
    login envConn =
      ((true, "Already connected as mybox. Click \x27Switch Account\x27 to change accounts."), []) :=
  ⟨rfl, rfl, (c7_login_idempotent envConn rfl rfl).trans rfl⟩

/-- C8: with the daemon reachable, when both the unprivileged switch and
the passwordless `sudo -n` retry exit non-zero, `switch_to_profile`
returns the escalation-required outcome (`None`, distinct from both
ordinary results) and issues exactly those two attempts. -/
theorem c8_switch_escalation (env : Env) (p : String)
    (hd : env.daemonRunning = true)
    (h1 : env.switchPlainResult.exitCode ≠ 0)
    (h2 : env.switchSudoNResult.exitCode ≠ 0) :
    switch_to_profile env p =
      ((none, "sudo_required"), [Cmd.switchPlain p, Cmd.switchSudo p]) ∧
    (switch_to_profile env p).1.1 ≠ some true ∧
    (switch_to_profile env p).1.1 ≠ some false := by
  have h1' : (env.switchPlainResult.exitCode == 0) = false := by simpa using h1
  have h2' : (env.switchSudoNResult.exitCode == 0) = false := by simpa using h2
  refine ⟨?_, ?_, ?_⟩ <;> simp [switch_to_profile, hd, h1', h2']

theorem c8_witness :
    envEsc.daemonRunning = true ∧
    envEsc.switchPlainResult.exitCode ≠ 0 ∧
    envEsc.switchSudoNResult.exitCode ≠ 0 ∧
    switch_to_profile envEsc "work" =
      ((none, "sudo_required"), [Cmd.switchPlain "work", Cmd.switchSudo "work"]) :=
  ⟨rfl, by decide, by decide,
    (c8_switch_escalation envEsc "work" rfl (by decide) (by decide)).1⟩


theorem pyEq_str_refl (n : String) : pyEq (.str n) (.str n) = true := by
  simp [pyEq, beqJ]

/-- C9: adding a nickname and loading yields a list containing it exactly
once, even when it is added twice (given the insert-time uniqueness
invariant of the stored list), and removing an absent nickname returns the
unchanged store and reports failure. -/
theorem c9_profile_roundtrip (fs : FileState) (n : String) :
    (profileCount (load_profiles fs) n ≤ 1 →
      profileCount (load_profiles (add_profile fs n).1) n = 1 ∧
      profileCount (load_profiles (add_profile (add_profile fs n).1 n).1) n = 1) ∧
    ((load_profiles fs).any (fun x => pyEq x (.str n)) = false →
      remove_profile fs n = (fs, false)) := by
  constructor
  · intro hle
    by_cases h : (load_profiles fs).any (fun x => pyEq x (.str n)) = true
    · have hpos := (any_iff_filter_pos _ _).mp h
      have hcount : profileCount (load_profiles fs) n = 1 := le_antisymm hle hpos
      have hadd : add_profile fs n = (fs, false) := by simp [add_profile, h]
      exact ⟨by simpa [hadd] using hcount, by simpa [hadd] using hcount⟩
    · have hzero : profileCount (load_profiles fs) n = 0 := by
        by_contra hne
        exact h ((any_iff_filter_pos _ _).mpr (Nat.pos_of_ne_zero hne))
      have hadd : add_profile fs n =
          (.content (.arr (load_profiles fs ++ [.str n])), true) := by
        have h' : (load_profiles fs).any (fun x => pyEq x (.str n)) = false := by
          simpa using h
        simp [add_profile, h', save_profiles]
      have hload1 : load_profiles (add_profile fs n).1 = load_profiles fs ++ [.str n] := by
        rw [hadd]
        rfl
      have hcount1 : profileCount (load_profiles (add_profile fs n).1) n = 1 := by
        unfold profileCount at hzero ⊢
        rw [hload1, List.filter_append, List.length_append, hzero]
        simp [pyEq_str_refl]
      have hany2 : (load_profiles (add_profile fs n).1).any
          (fun x => pyEq x (.str n)) = true := by
        rw [hload1]
        simp [pyEq_str_refl]
      have hadd2 : add_profile (add_profile fs n).1 n = ((add_profile fs n).1, false) := by
        generalize (add_profile fs n).1 = X at hany2 ⊢
        simp only [add_profile]
        rw [if_pos hany2]
      exact ⟨hcount1, by simpa [hadd2] using hcount1⟩
  · intro h
    simp [remove_profile, h]

theorem c9_witness :
    profileCount (load_profiles FileState.missing) "work" ≤ 1 ∧
    profileCount (load_profiles (add_profile FileState.missing "work").1) "work" = 1 ∧
    profileCount
      (load_profiles (add_profile (add_profile FileState.missing "work").1 "work").1) "work" = 1 ∧
    (load_profiles FileState.missing).any (fun x => pyEq x (.str "work")) = false ∧
    remove_profile FileState.missing "work" = (FileState.missing, false) :=
  ⟨by decide,
    ((c9_profile_roundtrip FileState.missing "work").1 (by decide)).1,
    ((c9_profile_roundtrip FileState.missing "work").1 (by decide)).2,
    rfl,
    (c9_profile_roundtrip FileState.missing "work").2 rfl⟩

/-- C4: the assignment identifier is extracted by the documented fallback
cascade — root exit-node-status record first, then the root plain
identifier field, then the self device's identifier field or embedded
record — each later source consulted only when every earlier one yielded
nothing. -/
theorem c4_extraction_cascade (v s : JVal) :
    (truthy (rootStatusId v) = true → extractId v = .ok (rootStatusId v)) ∧
    (truthy (rootStatusId v) = false → truthy (rootExitNodeId v) = true →
      extractId v = .ok (rootExitNodeId v)) ∧
    (truthy (rootStatusId v) = false → truthy (rootExitNodeId v) = false →
      v.lookup "Self" = some s → isObj s = true →
      extractId v = .ok (selfExitNodeIdSrc s)) := by
  refine ⟨?_, ?_, ?_⟩
  · intro h1
    unfold rootStatusId at h1 ⊢
    unfold extractId
    cases hS : v.lookup "Self" <;> simp [h1, hS]
  · intro h1 h2
    unfold rootStatusId at h1
    unfold rootExitNodeId at h2 ⊢
    unfold extractId
    cases hS : v.lookup "Self" <;> simp [h1, h2, hS]
  · intro h1 h2 hSelf hobj
    simp only [rootStatusId] at h1
    simp only [rootExitNodeId] at h2
    cases s with
    | obj fs =>
      simp only [extractId, selfExitNodeIdSrc, hSelf, h1, h2, Bool.false_eq_true, if_false]
      split_ifs <;> try rfl
      all_goals cases getD (JVal.obj fs) "ExitNodeStatus" (JVal.obj []) <;> rfl
    | null => simp [isObj] at hobj
    | bool b => simp [isObj] at hobj
    | num n => simp [isObj] at hobj
    | str t => simp [isObj] at hobj
    | arr l => simp [isObj] at hobj

theorem c4_witness :
    truthy (rootStatusId snapC) = true ∧
    extractId snapC = .ok (rootStatusId snapC) ∧
    truthy (rootStatusId noSelfSnap) = false ∧
    truthy (rootExitNodeId noSelfSnap) = true ∧
    extractId noSelfSnap = .ok (rootExitNodeId noSelfSnap) ∧
    extractId selfEidSnap =
      .ok (selfExitNodeIdSrc (.obj [("ExitNodeID", .str "se1"), ("ID", .str "s0")])) :=
  ⟨rfl, (c4_extraction_cascade snapC .null).1 rfl,
    rfl, rfl, (c4_extraction_cascade noSelfSnap .null).2.1 rfl rfl,
    (c4_extraction_cascade selfEidSnap
        (.obj [("ExitNodeID", .str "se1"), ("ID", .str "s0")])).2.2 rfl rfl rfl rfl⟩

theorem stableIns_perm {α : Type} (le : α → α → Bool) (x : α) (l : List α) :
    (stableIns le x l).Perm (x :: l) := by
  induction l with
  | nil => exact List.Perm.refl _
  | cons y ys ih =>
    simp only [stableIns]
    split
    · exact List.Perm.refl _
    · exact (ih.cons y).trans (List.Perm.swap x y ys)

theorem pySortList_perm {α : Type} (le : α → α → Bool) (l : List α) :
    (pySortList le l).Perm l := by
  induction l with
  | nil => exact List.Perm.refl _
  | cons x xs ih => exact (stableIns_perm le x _).trans (ih.cons x)

theorem pairwise_stableIns {α : Type} {le : α → α → Bool}
    (htot : ∀ a b, le a b = true ∨ le b a = true)
    (htr : ∀ a b c, le a b = true → le b c = true → le a c = true)
    (x : α) (l : List α) (h : l.Pairwise (fun a b => le a b = true)) :
    (stableIns le x l).Pairwise (fun a b => le a b = true) := by
  induction l with
  | nil => simp [stableIns]
  | cons y ys ih =>
    rcases List.pairwise_cons.mp h with ⟨hy, hys⟩
    by_cases hxy : le x y = true
    · simp only [stableIns, hxy, if_true]
      refine List.pairwise_cons.mpr ⟨?_, h⟩
      intro z hz
      rcases List.mem_cons.mp hz with rfl | hz
      · exact hxy
      · exact htr x y z hxy (hy z hz)
    · have hyx : le y x = true := (htot x y).resolve_left hxy
      simp only [stableIns, hxy, if_false]
      refine List.pairwise_cons.mpr ⟨?_, ih hys⟩
      intro z hz
      rcases List.mem_cons.mp ((stableIns_perm le x ys).mem_iff.mp hz) with rfl | hz
      · exact hyx
      · exact hy z hz

theorem pairwise_pySortList {α : Type} {le : α → α → Bool}
    (htot : ∀ a b, le a b = true ∨ le b a = true)
    (htr : ∀ a b c, le a b = true → le b c = true → le a c = true)
    (l : List α) :
    (pySortList le l).Pairwise (fun a b => le a b = true) := by
  induction l with
  | nil => simp [pySortList]
  | cons x xs ih => exact pairwise_stableIns htot htr x _ ih

theorem charListLe_total (a b : List Char) :
    charListLe a b = true ∨ charListLe b a = true := by
  induction a generalizing b with
  | nil => left; rfl
  | cons c cs ih =>
    cases b with
    | nil => right; rfl
    | cons d ds =>
      simp only [charListLe]
      rcases Nat.lt_trichotomy c.toNat d.toNat with h | h | h
      · left
        simp [h]
      · have h1 : ¬c.toNat < d.toNat := by omega
        have h2 : ¬d.toNat < c.toNat := by omega
        simpa [h1, h2] using ih ds
      · right
        simp [h]

theorem charListLe_trans (a b c : List Char) :
    charListLe a b = true → charListLe b c = true → charListLe a c = true := by
  induction a generalizing b c with
  | nil => intro _ _; rfl
  | cons x xs ih =>
    cases b with
    | nil => intro h; simp [charListLe] at h
    | cons y ys =>
      cases c with
      | nil => intro _ h; simp [charListLe] at h
      | cons z zs =>
        intro hab hbc
        simp only [charListLe] at hab hbc ⊢
        by_cases h1 : x.toNat < y.toNat
        · by_cases h2 : y.toNat < z.toNat
          · have hxz : x.toNat < z.toNat := Nat.lt_trans h1 h2
            simp [hxz]
          · by_cases h3 : z.toNat < y.toNat
            · rw [if_neg h2, if_pos h3] at hbc
              exact absurd hbc (by simp)
            · have hxz : x.toNat < z.toNat := by omega
              simp [hxz]
        · by_cases h4 : y.toNat < x.toNat
          · rw [if_neg h1, if_pos h4] at hab
            exact absurd hab (by simp)
          · by_cases h2 : y.toNat < z.toNat
            · have hxz : x.toNat < z.toNat := by omega
              simp [hxz]
            · by_cases h3 : z.toNat < y.toNat
              · rw [if_neg h2, if_pos h3] at hbc
                exact absurd hbc (by simp)
              · have e1 : ¬x.toNat < z.toNat := by omega
                have e2 : ¬z.toNat < x.toNat := by omega
                rw [if_neg h1, if_neg h4] at hab
                rw [if_neg h2, if_neg h3] at hbc
                rw [if_neg e1, if_neg e2]
                exact ih ys zs hab hbc

theorem strLe_total (a b : String) : strLe a b = true ∨ strLe b a = true :=
  charListLe_total a.data b.data

theorem strLe_trans (a b c : String) :
    strLe a b = true → strLe b c = true → strLe a c = true :=
  charListLe_trans a.data b.data c.data

theorem exBind_ok {α β : Type} (a : α) (f : α → Except String β) :
    (Except.ok a >>= f) = f a := rfl

theorem exBind_error {α β : Type} (e : String) (f : α → Except String β) :
    ((Except.error e : Except String α) >>= f) = Except.error e := rfl

theorem exPure_eq {α : Type} (a : α) : (pure a : Except String α) = .ok a := rfl

theorem exBind_eq_ok {α β : Type} {x : Except String α} {f : α → Except String β} {b : β} :
    (x >>= f) = .ok b ↔ ∃ a, x = .ok a ∧ f a = .ok b := by
  cases x with
  | ok a => simp [exBind_ok]
  | error e => simp [exBind_error]

theorem mkPeerDevice_not_self (info : JVal) (d : DeviceEntry)
    (h : mkPeerDevice info = .ok d) : d.is_self = false := by
  unfold mkPeerDevice at h
  simp only [exBind_eq_ok, exPure_eq, Except.ok.injEq] at h
  obtain ⟨name, -, ip, -, onl, -, hd⟩ := h
  subst hd
  rfl

theorem mkPeerDevices_not_self (items : List (String × JVal)) (ds : List DeviceEntry)
    (h : mkPeerDevices items = .ok ds) : ∀ d ∈ ds, d.is_self = false := by
  induction items generalizing ds with
  | nil =>
    simp only [mkPeerDevices, Except.ok.injEq] at h
    subst h
    intro d hd
    simp at hd
  | cons p rest ih =>
    simp only [mkPeerDevices, exBind_eq_ok, exPure_eq, Except.ok.injEq] at h
    obtain ⟨d0, hd0, ds', hds', hd⟩ := h
    subst hd
    intro d hd
    rcases List.mem_cons.mp hd with rfl | hmem
    · exact mkPeerDevice_not_self p.2 d hd0
    · exact ih ds' hds' d hmem

theorem mkSelfDevice_entry (info : JVal) (d : DeviceEntry)
    (h : mkSelfDevice info = .ok d) : d.is_self = true ∧ d.online = .bool true := by
  unfold mkSelfDevice at h
  simp only [exBind_eq_ok, exPure_eq, Except.ok.injEq] at h
  obtain ⟨name, -, ip, -, hd⟩ := h
  subst hd
  exact ⟨rfl, rfl⟩

theorem mkSelfExitEntries_online (info : JVal) (es : List ExitNodeEntry)
    (h : mkSelfExitEntries info = .ok es) :
    ∀ e ∈ es, e.is_self = true ∧ e.online = .bool true := by
  unfold mkSelfExitEntries at h
  simp only [exBind_eq_ok] at h
  obtain ⟨dns, -, ip, -, nid, -, can, -, hif⟩ := h
  split at hif
  · simp only [exBind_eq_ok, exPure_eq, Except.ok.injEq] at hif
    obtain ⟨hd, -, host, -, hes⟩ := hif
    subst hes
    intro e he
    rcases List.mem_singleton.mp he with rfl
    exact ⟨rfl, rfl⟩
  · rw [exPure_eq] at hif
    injection hif with hes
    subst hes
    intro e he
    simp at he

theorem mkPeerExitEntries_not_self (items : List (String × JVal)) (es : List ExitNodeEntry)
    (h : mkPeerExitEntries items = .ok es) : ∀ e ∈ es, e.is_self = false := by
  induction items generalizing es with
  | nil =>
    simp only [mkPeerExitEntries, Except.ok.injEq] at h
    subst h
    intro e he
    simp at he
  | cons p rest ih =>
    simp only [mkPeerExitEntries, exBind_eq_ok] at h
    obtain ⟨dns, -, ip, -, can, -, h⟩ := h
    split at h
    · simp only [exBind_eq_ok, exPure_eq, Except.ok.injEq] at h
      obtain ⟨hd, -, host, -, onl, -, y, hy, a, ha, hes⟩ := h
      subst hes
      subst hy
      intro e he
      rcases List.mem_cons.mp (by simpa using he) with rfl | hmem
      · rfl
      · exact ih a ha e hmem
    · simp only [exBind_eq_ok, exPure_eq, Except.ok.injEq] at h
      obtain ⟨y, hy, a, ha, hes⟩ := h
      subst hes
      subst hy
      intro e he
      exact ih a ha e (by simpa using he)

theorem exitNodesRaw_self_online (v : JVal) (es : List ExitNodeEntry)
    (h : exitNodesRaw v = .ok es) :
    ∀ e ∈ es, e.is_self = true → e.online = .bool true := by
  unfold exitNodesRaw at h
  simp only [exBind_eq_ok] at h
  obtain ⟨hasSelf, -, h⟩ := h
  split at h
  · simp only [exBind_eq_ok] at h
    obtain ⟨si, -, selfEs, hselfEs, hasPeer, -, h⟩ := h
    split at h
    · simp only [exBind_eq_ok, exPure_eq, Except.ok.injEq] at h
      obtain ⟨peers, -, items, -, peerEs, hpeerEs, hes⟩ := h
      subst hes
      intro e he hself
      rcases List.mem_append.mp he with hmem | hmem
      · exact (mkSelfExitEntries_online si selfEs hselfEs e hmem).2
      · exact absurd hself (by simp [mkPeerExitEntries_not_self items peerEs hpeerEs e hmem])
    · simp only [exBind_eq_ok, exPure_eq, Except.ok.injEq] at h
      obtain ⟨peerEs, hpe, hes⟩ := h
      subst hes
      subst hpe
      intro e he hself
      rcases List.mem_append.mp he with hmem | hmem
      · exact (mkSelfExitEntries_online si selfEs hselfEs e hmem).2
      · simp at hmem
  · simp only [exBind_eq_ok, exPure_eq, Except.ok.injEq] at h
    obtain ⟨selfEs, hse, hasPeer, -, h⟩ := h
    subst hse
    split at h
    · simp only [exBind_eq_ok, exPure_eq, Except.ok.injEq] at h
      obtain ⟨peers, -, items, -, peerEs, hpeerEs, hes⟩ := h
      subst hes
      intro e he hself
      rcases List.mem_append.mp he with hmem | hmem
      · simp at hmem
      · exact absurd hself (by simp [mkPeerExitEntries_not_self items peerEs hpeerEs e hmem])
    · simp only [exBind_eq_ok, exPure_eq, Except.ok.injEq] at h
      obtain ⟨peerEs, hpe, hes⟩ := h
      subst hes
      subst hpe
      intro e he hself
      simp at he

theorem pySortByHostname_perm (raw l : List ExitNodeEntry)
    (h : pySortByHostname raw = .ok l) : l.Perm raw := by
  unfold pySortByHostname at h
  split_ifs at h
  · injection h with h
    subst h
    exact List.Perm.refl _
  · injection h with h
    subst h
    exact pySortList_perm _ _
  · injection h with h
    subst h
    exact pySortList_perm _ _

theorem get_available_exit_nodes_self_online (st : Option JVal) :
    ∀ e ∈ get_available_exit_nodes st, e.is_self = true → e.online = .bool true := by
  intro e he hself
  match st with
  | none => simp [get_available_exit_nodes] at he
  | some v =>
    simp only [get_available_exit_nodes] at he
    split at he
    · simp at he
    · revert he
      split
      · rename_i res hres
        rw [exBind_eq_ok] at hres
        obtain ⟨raw, hraw, hsort⟩ := hres
        intro he
        exact exitNodesRaw_self_online v raw hraw e
          ((pySortByHostname_perm raw res hsort).subset he) hself
      · intro he
        simp at he

/-- C10: whenever the snapshot has a `Self` record and `get_devices`
succeeds, the self row is first, is marked as this device, and is shown
online unconditionally, with every later row a peer row; the self row of
the exit-node candidate list is likewise always online. -/
theorem c10_self_device_row (v s : JVal) (l : List DeviceEntry)
    (hSelf : v.lookup "Self" = some s)
    (hok : get_devices (some v) = .ok l) :
    (∃ d rest, l = d :: rest ∧ d.is_self = true ∧ d.online = .bool true ∧
      ∀ r ∈ rest, r.is_self = false) ∧
    (∀ e ∈ get_available_exit_nodes (some v), e.is_self = true → e.online = .bool true) := by
  refine ⟨?_, fun e he hs => get_available_exit_nodes_self_online (some v) e he hs⟩
  cases v with
  | obj fs =>
    have htr : truthy (JVal.obj fs) = true := truthy_of_lookup_some hSelf
    simp only [get_devices, htr, Bool.not_true, Bool.false_eq_true, if_false] at hok
    simp only [exBind_eq_ok] at hok
    obtain ⟨hasSelf, hcont, hok⟩ := hok
    have hst : hasSelf = true := by
      simp only [pyContains, Except.ok.injEq] at hcont
      rw [← hcont, lookup_obj_any, hSelf]
      rfl
    rw [if_pos hst] at hok
    simp only [exBind_eq_ok, exPure_eq, Except.ok.injEq] at hok
    obtain ⟨self_info, hsub, d, hmk, y, hy, hasPeer, -, hok⟩ := hok
    have hsi : self_info = s := by
      simp only [pySubscript, hSelf, Except.ok.injEq] at hsub
      exact hsub.symm
    subst hsi
    subst hy
    split at hok
    · simp only [exBind_eq_ok, exPure_eq, Except.ok.injEq] at hok
      obtain ⟨peers, -, items, -, peerDevs, hpd, hl⟩ := hok
      refine ⟨d, peerDevs, by simpa using hl.symm, (mkSelfDevice_entry self_info d hmk).1,
        (mkSelfDevice_entry self_info d hmk).2, ?_⟩
      exact mkPeerDevices_not_self items peerDevs hpd
    · simp only [exBind_eq_ok, exPure_eq, Except.ok.injEq] at hok
      obtain ⟨peerDevs, hpe, hl⟩ := hok
      subst hpe
      refine ⟨d, [], by simpa using hl.symm, (mkSelfDevice_entry self_info d hmk).1,
        (mkSelfDevice_entry self_info d hmk).2, ?_⟩
      intro r hr
      simp at hr
  | null => simp [JVal.lookup] at hSelf
  | bool b => simp [JVal.lookup] at hSelf
  | num n => simp [JVal.lookup] at hSelf
  | str t => simp [JVal.lookup] at hSelf
  | arr a => simp [JVal.lookup] at hSelf

theorem c10_witness :
    exSnap.lookup "Self" = some (.obj [("DNSName", .str "me.x.ts.net"),
      ("TailscaleIPs", .arr [.str "100.0.0.1"]), ("ID", .str "s1"),
      ("ExitNodeOption", .bool true), ("HostName", .str "zme")]) ∧
    get_devices (some exSnap) = .ok
      [⟨.str "me.x.ts.net", .str "100.0.0.1", .bool true, true⟩,
       ⟨.str "bb.x.ts.net", .str "100.0.0.2", .bool false, false⟩,
       ⟨.str "aa.x.ts.net", .str "100.0.0.3", .bool false, false⟩,
       ⟨.str "cc.x.ts.net", .str "100.0.0.4", .bool false, false⟩] ∧
    ((∃ d rest,
        ([⟨.str "me.x.ts.net", .str "100.0.0.1", .bool true, true⟩,
          ⟨.str "bb.x.ts.net", .str "100.0.0.2", .bool false, false⟩,
          ⟨.str "aa.x.ts.net", .str "100.0.0.3", .bool false, false⟩,
          ⟨.str "cc.x.ts.net", .str "100.0.0.4", .bool false, false⟩] :
            List DeviceEntry) = d :: rest ∧
        d.is_self = true ∧ d.online = .bool true ∧ ∀ r ∈ rest, r.is_self = false) ∧
      (∀ e ∈ get_available_exit_nodes (some exSnap),
        e.is_self = true → e.online = .bool true)) :=
  ⟨rfl, rfl,
    c10_self_device_row exSnap
      (.obj [("DNSName", .str "me.x.ts.net"), ("TailscaleIPs", .arr [.str "100.0.0.1"]),
        ("ID", .str "s1"), ("ExitNodeOption", .bool true), ("HostName", .str "zme")])
      [⟨.str "me.x.ts.net", .str "100.0.0.1", .bool true, true⟩,
       ⟨.str "bb.x.ts.net", .str "100.0.0.2", .bool false, false⟩,
       ⟨.str "aa.x.ts.net", .str "100.0.0.3", .bool false, false⟩,
       ⟨.str "cc.x.ts.net", .str "100.0.0.4", .bool false, false⟩]
      rfl rfl⟩

theorem wtDevice_parts {d : JVal} (h : wtDevice d = true) :
    isObj d = true ∧ optStrField (d.lookup "DNSName") = true ∧
    optStrField (d.lookup "HostName") = true ∧ optStrField (d.lookup "ID") = true ∧
    optStrArrField (d.lookup "TailscaleIPs") = true ∧
    optBoolField (d.lookup "Online") = true ∧
    optBoolField (d.lookup "ExitNodeOption") = true ∧
    optStrField (d.lookup "ExitNodeID") = true ∧
    optENSField (d.lookup "ExitNodeStatus") = true := by
  cases d <;> simp [wtDevice, isObj] at h ⊢ <;> tauto

theorem wtStatus_parts {v : JVal} (h : wtStatus v = true) :
    isObj v = true ∧ optStrField (v.lookup "BackendState") = true ∧
    optBoolField (v.lookup "HaveNodeKey") = true ∧
    optStrField (v.lookup "AuthURL") = true ∧
    optStrField (v.lookup "ExitNodeID") = true ∧
    optENSField (v.lookup "ExitNodeStatus") = true ∧
    optDeviceField (v.lookup "Self") = true ∧
    wtPeers (v.lookup "Peer") = true := by
  cases v <;> simp [wtStatus, isObj] at h ⊢ <;> tauto

theorem getD_str_of_optStr {info : JVal} {k : String} (d : String)
    (h : optStrField (info.lookup k) = true) :
    ∃ t, getD info k (.str d) = .str t := by
  unfold getD
  cases hl : info.lookup k with
  | none => exact ⟨d, rfl⟩
  | some x =>
    rw [hl] at h
    cases x <;> simp [optStrField] at h ⊢

theorem getD_bool_of_optBool {info : JVal} {k : String}
    (h : optBoolField (info.lookup k) = true) :
    ∃ b, getD info k (.bool false) = .bool b := by
  unfold getD
  cases hl : info.lookup k with
  | none => exact ⟨false, rfl⟩
  | some x =>
    rw [hl] at h
    cases x <;> simp [optBoolField] at h ⊢

theorem primaryIpExpr_typed {info : JVal} (hobj : isObj info = true)
    (h : optStrArrField (info.lookup "TailscaleIPs") = true) :
    primaryIpExpr info "" = .ok (specPrimary info) := by
  cases info with
  | obj fs =>
    simp only [primaryIpExpr, pyGet, exBind_ok, specPrimary]
    cases hl : JVal.lookup (.obj fs) "TailscaleIPs" with
    | none => simp [getD, hl, truthy, exPure_eq]
    | some x =>
      rw [hl] at h
      cases x with
      | arr l =>
        cases l with
        | nil => simp [getD, hl, truthy, exPure_eq]
        | cons x0 rest => simp [getD, hl, truthy, index0]
      | null => simp [optStrArrField] at h
      | bool b => simp [optStrArrField] at h
      | num n => simp [optStrArrField] at h
      | str t => simp [optStrArrField] at h
      | obj g => simp [optStrArrField] at h
  | null => simp [isObj] at hobj
  | bool b => simp [isObj] at hobj
  | num n => simp [isObj] at hobj
  | str t => simp [isObj] at hobj
  | arr l => simp [isObj] at hobj

theorem specPrimary_str {info : JVal}
    (h : optStrArrField (info.lookup "TailscaleIPs") = true) :
    ∃ u, specPrimary info = .str u := by
  unfold specPrimary
  cases hl : info.lookup "TailscaleIPs" with
  | none => exact ⟨"", rfl⟩
  | some x =>
    rw [hl] at h
    cases x with
    | arr l =>
      cases l with
      | nil => exact ⟨"", rfl⟩
      | cons x0 rest =>
        simp only [optStrArrField, List.all_cons, Bool.and_eq_true] at h
        cases x0 <;> simp [isStrKey] at h ⊢
    | null => exact ⟨"", rfl⟩
    | bool b => exact ⟨"", rfl⟩
    | num n => exact ⟨"", rfl⟩
    | str t => exact ⟨"", rfl⟩
    | obj g => exact ⟨"", rfl⟩

theorem specHost_str {info : JVal}
    (hd : optStrField (info.lookup "DNSName") = true)
    (hh : optStrField (info.lookup "HostName") = true) :
    ∃ t, specHost info = .str t := by
  unfold specHost
  obtain ⟨td, htd⟩ := getD_str_of_optStr "" hd
  rw [htd]
  cases hl : info.lookup "HostName" with
  | none =>
    unfold getD
    rw [hl]
    by_cases he : truthy (JVal.str td) = true <;> simp [he]
  | some x =>
    rw [hl] at hh
    unfold getD
    rw [hl]
    cases x <;> simp [optStrField] at hh ⊢

theorem hostNameDefault_str (t : String) :
    hostNameDefault (.str t) =
      .ok (if truthy (.str t) = true then JVal.str (splitHead t ".") else .str "") := by
  by_cases h : truthy (JVal.str t) = true <;> simp [hostNameDefault, h]

theorem guard_eq_pred {info : JVal} (self? : Bool) (idv onl : JVal)
    (hdns : optStrField (info.lookup "DNSName") = true)
    (htip : optStrArrField (info.lookup "TailscaleIPs") = true)
    (hcan : optBoolField (info.lookup "ExitNodeOption") = true) :
    (truthy (getD info "DNSName" (.str "")) && truthy (specPrimary info) &&
      truthy (getD info "ExitNodeOption" (.bool false)))
      = specCandidatePred (specEntry self? idv onl info) := by
  obtain ⟨td, htd⟩ := getD_str_of_optStr "" hdns
  obtain ⟨u, hu⟩ := specPrimary_str htip
  obtain ⟨b, hb⟩ := getD_bool_of_optBool hcan
  rw [Bool.eq_iff_iff]
  simp only [specCandidatePred, specEntry, htd, hu, hb, truthy, isNonemptyStr,
    Bool.and_eq_true]
  tauto

theorem mkSelfExitEntries_typed {s : JVal} (hw : wtDevice s = true) :
    mkSelfExitEntries s =
      .ok (List.filter specCandidatePred
        [specEntry true (getD s "ID" (.str "")) (.bool true) s]) := by
  obtain ⟨hobj, hdns, hhost, hid, htip, honl, hcan, -, -⟩ := wtDevice_parts hw
  cases s with
  | obj fs =>
    simp only [mkSelfExitEntries, pyGet, exBind_ok]
    rw [primaryIpExpr_typed hobj htip, exBind_ok]
    obtain ⟨td, htd⟩ := getD_str_of_optStr "" hdns
    by_cases hg : (truthy (getD (JVal.obj fs) "DNSName" (.str "")) &&
        truthy (specPrimary (JVal.obj fs)) &&
        truthy (getD (JVal.obj fs) "ExitNodeOption" (.bool false))) = true
    · rw [if_pos hg]
      rw [htd, hostNameDefault_str]
      simp only [exBind_ok, exPure_eq]
      have hp : specCandidatePred
          (specEntry true (getD (JVal.obj fs) "ID" (.str "")) (.bool true) (.obj fs)) = true := by
        rw [← guard_eq_pred true _ _ hdns htip hcan]
        exact hg
      rw [show List.filter specCandidatePred
          [specEntry true (getD (JVal.obj fs) "ID" (.str "")) (.bool true) (.obj fs)]
          = [specEntry true (getD (JVal.obj fs) "ID" (.str "")) (.bool true) (.obj fs)] from by
        simp [List.filter, hp]]
      simp [specEntry, specHost, htd, strOf]
    · rw [if_neg hg]
      have hg' : (truthy (getD (JVal.obj fs) "DNSName" (.str "")) &&
          truthy (specPrimary (JVal.obj fs)) &&
          truthy (getD (JVal.obj fs) "ExitNodeOption" (.bool false))) = false := by
        simpa using hg
      have hp : specCandidatePred
          (specEntry true (getD (JVal.obj fs) "ID" (.str "")) (.bool true) (.obj fs)) = false := by
        rw [← guard_eq_pred true _ _ hdns htip hcan]
        exact hg'
      simp [List.filter, hp, exPure_eq]
  | null => simp [isObj] at hobj
  | bool b => simp [isObj] at hobj
  | num n => simp [isObj] at hobj
  | str t => simp [isObj] at hobj
  | arr l => simp [isObj] at hobj

theorem pyGet_ok_of_isObj {v : JVal} (h : isObj v = true) (k : String) (d : JVal) :
    pyGet v k d = .ok (getD v k d) := by
  cases v <;> simp [isObj] at h <;> rfl

theorem mkPeerExitEntries_typed (items : List (String × JVal)) :
    (∀ p ∈ items, wtDevice p.2 = true) →
    mkPeerExitEntries items =
      .ok (List.filter specCandidatePred
        (items.map (fun p => specEntry false (.str p.1) (getD p.2 "Online" (.bool false)) p.2))) := by
  induction items with
  | nil => intro _; rfl
  | cons p rest ih =>
    intro hw
    have hwp := hw p (by simp)
    have hwr : ∀ q ∈ rest, wtDevice q.2 = true := fun q hq => hw q (by simp [hq])
    obtain ⟨hobj, hdns, hhost, hid, htip, honl, hcan, -, -⟩ := wtDevice_parts hwp
    simp only [mkPeerExitEntries]
    rw [pyGet_ok_of_isObj hobj, exBind_ok, primaryIpExpr_typed hobj htip, exBind_ok,
      pyGet_ok_of_isObj hobj, exBind_ok]
    obtain ⟨td, htd⟩ := getD_str_of_optStr "" hdns
    by_cases hg : (truthy (getD p.2 "DNSName" (.str "")) && truthy (specPrimary p.2) &&
        truthy (getD p.2 "ExitNodeOption" (.bool false))) = true
    · have hp : specCandidatePred
          (specEntry false (.str p.1) (getD p.2 "Online" (.bool false)) p.2) = true := by
        rw [← guard_eq_pred false _ _ hdns htip hcan]
        exact hg
      rw [if_pos hg, htd, hostNameDefault_str]
      simp only [pyGet_ok_of_isObj hobj, exBind_ok, exPure_eq]
      rw [ih hwr]
      simp only [exBind_ok, exPure_eq, List.map_cons, List.filter_cons, hp, if_true,
        Except.ok.injEq]
      simp [specEntry, specHost, htd, strOf]
    · have hg' : (truthy (getD p.2 "DNSName" (.str "")) && truthy (specPrimary p.2) &&
          truthy (getD p.2 "ExitNodeOption" (.bool false))) = false := by
        simpa using hg
      have hp : specCandidatePred
          (specEntry false (.str p.1) (getD p.2 "Online" (.bool false)) p.2) = false := by
        rw [← guard_eq_pred false _ _ hdns htip hcan]
        exact hg'
      rw [if_neg hg]
      simp only [exBind_ok, exPure_eq]
      rw [ih hwr]
      simp only [exBind_ok, exPure_eq, List.map_cons, List.filter_cons, hp,
        Bool.false_eq_true, if_false, Except.ok.injEq]
      simp

theorem exitNodesRaw_typed {v : JVal} (hw : wtStatus v = true) :
    exitNodesRaw v = .ok (claimCandidates v) := by
  obtain ⟨hobj, -, -, -, -, -, hSelfT, hPeerT⟩ := wtStatus_parts hw
  cases v with
  | obj fs =>
    have hcS : pyContains (JVal.obj fs) "Self" = .ok ((JVal.obj fs).lookup "Self").isSome := by
      simp [pyContains, lookup_obj_any]
    have hcP : pyContains (JVal.obj fs) "Peer" = .ok ((JVal.obj fs).lookup "Peer").isSome := by
      simp [pyContains, lookup_obj_any]
    simp only [exitNodesRaw]
    rw [hcS, exBind_ok]
    cases hS : (JVal.obj fs).lookup "Self" with
    | some s =>
      rw [hS] at hSelfT
      have hws : wtDevice s = true := by simpa [optDeviceField] using hSelfT
      simp only [Option.isSome_some, if_true]
      rw [show pySubscript (JVal.obj fs) "Self" = .ok s from by simp [pySubscript, hS],
        exBind_ok, mkSelfExitEntries_typed hws, exBind_ok, hcP, exBind_ok]
      cases hP : (JVal.obj fs).lookup "Peer" with
      | some pv =>
        rw [hP] at hPeerT
        cases pv with
        | obj ps =>
          have hwps : ∀ q ∈ ps, wtDevice q.2 = true := by
            simpa [wtPeers, List.all_eq_true] using hPeerT
          simp only [Option.isSome_some, if_true]
          rw [show pySubscript (JVal.obj fs) "Peer" = .ok (.obj ps) from by
              simp [pySubscript, hP],
            exBind_ok]
          simp only [pyItems, exBind_ok]
          rw [mkPeerExitEntries_typed ps hwps]
          simp only [exBind_ok, exPure_eq, claimCandidates, specDeviceEntries, hS, hP,
            Except.ok.injEq]
          by_cases hpred : specCandidatePred
              (specEntry true (getD s "ID" (.str "")) (.bool true) s) = true <;>
            simp [List.filter_cons, hpred]
        | null => simp [wtPeers] at hPeerT
        | bool b => simp [wtPeers] at hPeerT
        | num n => simp [wtPeers] at hPeerT
        | str t => simp [wtPeers] at hPeerT
        | arr l => simp [wtPeers] at hPeerT
      | none =>
        simp only [Option.isSome_none, Bool.false_eq_true, if_false, exBind_ok, exPure_eq]
        simp [claimCandidates, specDeviceEntries, hS, hP, List.filter_append]
    | none =>
      simp only [Option.isSome_none, Bool.false_eq_true, if_false, exBind_ok, exPure_eq]
      rw [hcP, exBind_ok]
      cases hP : (JVal.obj fs).lookup "Peer" with
      | some pv =>
        rw [hP] at hPeerT
        cases pv with
        | obj ps =>
          have hwps : ∀ q ∈ ps, wtDevice q.2 = true := by
            simpa [wtPeers, List.all_eq_true] using hPeerT
          simp only [Option.isSome_some, if_true]
          rw [show pySubscript (JVal.obj fs) "Peer" = .ok (.obj ps) from by
              simp [pySubscript, hP],
            exBind_ok]
          simp only [pyItems, exBind_ok]
          rw [mkPeerExitEntries_typed ps hwps]
          simp only [exBind_ok, exPure_eq]
          simp [claimCandidates, specDeviceEntries, hS, hP]
        | null => simp [wtPeers] at hPeerT
        | bool b => simp [wtPeers] at hPeerT
        | num n => simp [wtPeers] at hPeerT
        | str t => simp [wtPeers] at hPeerT
        | arr l => simp [wtPeers] at hPeerT
      | none =>
        simp only [Option.isSome_none, Bool.false_eq_true, if_false, exBind_ok, exPure_eq]
        simp [claimCandidates, specDeviceEntries, hS, hP, List.filter_append]
  | null => simp [isObj] at hobj
  | bool b => simp [isObj] at hobj
  | num n => simp [isObj] at hobj
  | str t => simp [isObj] at hobj
  | arr l => simp [isObj] at hobj

theorem claimCandidates_str_hostnames {v : JVal} (hw : wtStatus v = true) :
    ∀ e ∈ claimCandidates v, isStrKey e.hostname = true := by
  obtain ⟨hobj, -, -, -, -, -, hSelfT, hPeerT⟩ := wtStatus_parts hw
  intro e he
  have he' : e ∈ specDeviceEntries v := List.mem_of_mem_filter he
  unfold specDeviceEntries at he'
  rcases List.mem_append.mp he' with hmem | hmem
  · cases hS : v.lookup "Self" with
    | some s =>
      rw [hS] at hmem hSelfT
      have hws : wtDevice s = true := by simpa [optDeviceField] using hSelfT
      obtain ⟨-, hdns, hhost, -, -, -, -, -, -⟩ := wtDevice_parts hws
      simp only at hmem
      rcases List.mem_singleton.mp hmem with rfl
      obtain ⟨t, ht⟩ := specHost_str hdns hhost
      simp [specEntry, ht, isStrKey]
    | none =>
      rw [hS] at hmem
      simp at hmem
  · cases hP : v.lookup "Peer" with
    | some pv =>
      rw [hP] at hmem hPeerT
      cases pv with
      | obj ps =>
        simp only at hmem
        obtain ⟨q, hq, rfl⟩ := List.mem_map.mp hmem
        have hwq : wtDevice q.2 = true := by
          rw [show wtPeers (some (JVal.obj ps)) = ps.all (fun p => wtDevice p.2) from rfl,
            List.all_eq_true] at hPeerT
          exact hPeerT q hq
        obtain ⟨-, hdns, hhost, -, -, -, -, -, -⟩ := wtDevice_parts hwq
        obtain ⟨t, ht⟩ := specHost_str hdns hhost
        simp [specEntry, ht, isStrKey]
      | null => simp at hmem
      | bool b => simp at hmem
      | num n => simp at hmem
      | str t => simp at hmem
      | arr l => simp at hmem
    | none =>
      rw [hP] at hmem
      simp at hmem

/-- C6: for every well-typed snapshot, the exit-node candidate list contains
exactly the devices with the capability flag set, a non-empty DNS name and
a non-empty primary address (as a permutation of that filtered device list,
hence for any permutation of the peers), and is sorted ascending and
case-sensitively by derived short hostname. -/
theorem c6_exit_candidates (v : JVal) (hw : wtStatus v = true) :
    (get_available_exit_nodes (some v)).Perm (claimCandidates v) ∧
    (get_available_exit_nodes (some v)).Pairwise
      (fun a b => strLe (strOf a.hostname) (strOf b.hostname) = true) := by
  by_cases ht : truthy v = true
  · have hraw := exitNodesRaw_typed hw
    have hall : (claimCandidates v).all (fun e => isStrKey e.hostname) = true := by
      rw [List.all_eq_true]
      exact fun e he => claimCandidates_str_hostnames hw e he
    have hres : get_available_exit_nodes (some v)
        = (if (claimCandidates v).length ≤ 1 then claimCandidates v
           else pySortList (fun a b => strLe (strOf a.hostname) (strOf b.hostname))
             (claimCandidates v)) := by
      simp only [get_available_exit_nodes, ht, Bool.not_true, Bool.false_eq_true, if_false]
      rw [show (do pySortByHostname (← exitNodesRaw v)) = pySortByHostname (claimCandidates v)
        from by rw [hraw]; rfl]
      by_cases hlen : (claimCandidates v).length ≤ 1
      · simp [pySortByHostname, hlen]
      · simp [pySortByHostname, hlen, hall]
    rw [hres]
    by_cases hlen : (claimCandidates v).length ≤ 1
    · rw [if_pos hlen]
      refine ⟨List.Perm.refl _, ?_⟩
      match hc : claimCandidates v with
      | [] => simp
      | [x] => simp
      | x :: y :: rest =>
        rw [hc] at hlen
        simp at hlen
    · rw [if_neg hlen]
      exact ⟨pySortList_perm _ _,
        @pairwise_pySortList ExitNodeEntry
          (fun a b => strLe (strOf a.hostname) (strOf b.hostname))
          (fun a b => strLe_total _ _) (fun a b c => strLe_trans _ _ _)
          (claimCandidates v)⟩
  · obtain ⟨hobj, -⟩ := wtStatus_parts hw
    cases v with
    | obj fs =>
      cases fs with
      | nil =>
        constructor <;>
          simp [get_available_exit_nodes, claimCandidates, specDeviceEntries, JVal.lookup,
            List.find?, truthy]
      | cons p ps => exact absurd (by simp [truthy]) ht
    | null => simp [isObj] at hobj
    | bool b => simp [isObj] at hobj
    | num n => simp [isObj] at hobj
    | str t => simp [isObj] at hobj
    | arr l => simp [isObj] at hobj

theorem c6_witness :
    wtStatus exSnap = true ∧
    (get_available_exit_nodes (some exSnap)).map (fun e => strOf e.hostname)
      = ["aa", "bb", "zme"] ∧
    ((get_available_exit_nodes (some exSnap)).Perm (claimCandidates exSnap) ∧
      (get_available_exit_nodes (some exSnap)).Pairwise
        (fun a b => strLe (strOf a.hostname) (strOf b.hostname) = true)) :=
  ⟨rfl, rfl, c6_exit_candidates exSnap rfl⟩

/-- C3: the claim fails as stated: the matching phase of
`get_current_exit_node` sits entirely inside the `if 'Self' in status`
branch, so a snapshot without a `Self` record resolves to `None` even when
a peer matches the assignment identifier exactly (cascade rule 1), where
the claimed cascade resolves that peer. -/
theorem c3_counterexample :
    get_current_exit_node (some noSelfSnap) = none ∧
    specResolve noSelfSnap =
      some ⟨"p1", .str "a.ts.net", .str "100.64.0.7", .str "a"⟩ :=
  ⟨rfl, rfl⟩

theorem rule1_eq (enid : JVal) (k : String) :
    (k == pyStr enid || pyEq (.str k) enid) = (k == pyStr enid) := by
  cases enid <;> simp [pyEq, beqJ, pyStr]

theorem charsSplitHead_eq_self (l p : List Char) (h : charsContains l p = false) :
    charsSplitHead l p = l := by
  induction l with
  | nil => rfl
  | cons c cs ih =>
    simp only [charsContains, Bool.or_eq_false_iff] at h
    simp only [charsSplitHead, h.1, Bool.false_eq_true, if_false]
    rw [ih h.2]

theorem String.mk_data (s : String) : String.mk s.data = s := rfl

theorem strip_str (base : String) :
    (if (truthy (JVal.str base) && strContains (pyStr (JVal.str base)) "/") = true
      then JVal.str (splitHead (pyStr (JVal.str base)) "/") else JVal.str base)
      = .str (splitHead base "/") := by
  simp only [pyStr]
  by_cases hb : base = ""
  · subst hb
    simp [truthy, splitHead, charsSplitHead]
  · by_cases hc : strContains base "/" = true
    · simp [truthy, hb, hc]
    · have hs : splitHead base "/" = base := by
        unfold splitHead
        rw [charsSplitHead_eq_self base.data ("/" : String).data (by simpa using hc)]
      simp [truthy, hb, hc, hs]

theorem exitNodeIp_typed {v : JVal} (hw : wtStatus v = true) :
    ∃ enip, exitNodeIp (getD v "ExitNodeStatus" (.obj [])) = .ok enip ∧
      ((hintTruthy enip = false ∧ specHint v = none) ∨
        (∃ h, enip = some h ∧ h ≠ "" ∧ specHint v = some h)) := by
  obtain ⟨hobj, -, -, -, -, hENS, -, -⟩ := wtStatus_parts hw
  cases hl : v.lookup "ExitNodeStatus" with
  | none =>
    refine ⟨none, ?_, Or.inl ⟨rfl, ?_⟩⟩
    · simp [getD, hl, exitNodeIp, truthy, exPure_eq]
    · simp only [specHint, hl]
  | some e =>
    rw [hl] at hENS
    cases e with
    | obj gs =>
      simp only [optENSField, wtENS, Bool.and_eq_true] at hENS
      obtain ⟨hID, hTIPs⟩ := hENS
      have hg : getD v "ExitNodeStatus" (.obj []) = .obj gs := by simp [getD, hl]
      rw [hg]
      cases gs with
      | nil =>
        refine ⟨none, ?_, Or.inl ⟨rfl, ?_⟩⟩
        · simp [exitNodeIp, truthy, exPure_eq]
        · simp only [specHint, hl]
          simp [getD, JVal.lookup, List.find?]
      | cons g0 grest =>
        cases hT : JVal.lookup (.obj (g0 :: grest)) "TailscaleIPs" with
        | none =>
          refine ⟨none, ?_, Or.inl ⟨rfl, ?_⟩⟩
          · simp [exitNodeIp, truthy, getD, hT, exPure_eq]
          · simp only [specHint, hl]
            simp [getD, hT]
        | some tv =>
          rw [hT] at hTIPs
          cases tv with
          | arr l =>
            cases l with
            | nil =>
              refine ⟨none, ?_, Or.inl ⟨rfl, ?_⟩⟩
              · simp [exitNodeIp, truthy, getD, hT, exPure_eq]
              · simp only [specHint, hl]
                simp [getD, hT]
            | cons x xs =>
              simp only [optStrArrField, List.all_cons, Bool.and_eq_true] at hTIPs
              obtain ⟨hx, -⟩ := hTIPs
              cases x with
              | str x0 =>
                by_cases hempty : splitHead x0 "/" = ""
                · refine ⟨some (splitHead x0 "/"), ?_, Or.inl ⟨?_, ?_⟩⟩
                  · simp [exitNodeIp, truthy, getD, hT, index0, exPure_eq, exBind_ok]
                  · simp [hintTruthy, hempty]
                  · simp only [specHint, hl]
                    simp [getD, hT, pyStr, hempty]
                · refine ⟨some (splitHead x0 "/"), ?_,
                    Or.inr ⟨splitHead x0 "/", rfl, hempty, ?_⟩⟩
                  · simp [exitNodeIp, truthy, getD, hT, index0, exPure_eq, exBind_ok]
                  · simp only [specHint, hl]
                    simp [getD, hT, pyStr, hempty]
              | null => simp [isStrKey] at hx
              | bool b => simp [isStrKey] at hx
              | num n => simp [isStrKey] at hx
              | arr a => simp [isStrKey] at hx
              | obj o => simp [isStrKey] at hx
          | null => simp [optStrArrField] at hTIPs
          | bool b => simp [optStrArrField] at hTIPs
          | num n => simp [optStrArrField] at hTIPs
          | str t => simp [optStrArrField] at hTIPs
          | obj o => simp [optStrArrField] at hTIPs
    | null => simp [optENSField, wtENS] at hENS
    | bool b => simp [optENSField, wtENS] at hENS
    | num n => simp [optENSField, wtENS] at hENS
    | str t => simp [optENSField, wtENS] at hENS
    | arr a => simp [optENSField, wtENS] at hENS

theorem pyContains_ok_of_isObj {v : JVal} (h : isObj v = true) (k : String) :
    pyContains v k = .ok ((v.lookup k).isSome) := by
  cases v <;> simp [isObj] at h <;> simp [pyContains, lookup_obj_any]

theorem peerMatched_typed (enid : JVal) (enip hint : Option String)
    (k : String) (info : JVal) (hw : wtDevice info = true)
    (hh : (hintTruthy enip = false ∧ hint = none) ∨
      (∃ h, enip = some h ∧ h ≠ "" ∧ hint = some h)) :
    peerMatched enid enip k info = .ok (specRuleMatch (pyStr enid) hint k info) := by
  obtain ⟨hobj, -, -, hid, htip, -, -, -, -⟩ := wtDevice_parts hw
  unfold peerMatched specRuleMatch
  rw [rule1_eq]
  by_cases h1 : (k == pyStr enid) = true
  · rw [if_pos h1, h1]
    simp [exPure_eq]
  · have h1f : (k == pyStr enid) = false := by simpa using h1
    rw [if_neg h1, h1f]
    simp only [Bool.false_or]
    rw [pyContains_ok_of_isObj hobj, exBind_ok]
    cases hID : info.lookup "ID" with
    | some x =>
      simp only [Option.isSome_some, if_true]
      simp only [pyGet_ok_of_isObj hobj, exBind_ok, exPure_eq]
      have hgd : getD info "ID" (.str "") = x := by simp [getD, hID]
      rw [hgd]
      by_cases h2 : (pyStr x == pyStr enid) = true
      · rw [if_pos h2, h2]
        simp [exPure_eq]
      · have h2f : (pyStr x == pyStr enid) = false := by simpa using h2
        rw [if_neg h2, h2f]
        simp only [Bool.false_or]
        rcases hh with ⟨hf, hn⟩ | ⟨h, he, hne, hs⟩
        · subst hn
          rw [hf]
          simp
        · subst he
          subst hs
          rw [if_pos (by simp [hintTruthy, hne])]
          cases hT : info.lookup "TailscaleIPs" with
          | none => simp [getD, hT, pyIter, exBind_ok]
          | some tv =>
            rw [hT] at htip
            cases tv with
            | arr l2 => simp [getD, hT, pyIter, exBind_ok]
            | null => simp [optStrArrField] at htip
            | bool b => simp [optStrArrField] at htip
            | num n => simp [optStrArrField] at htip
            | str t => simp [optStrArrField] at htip
            | obj o => simp [optStrArrField] at htip
    | none =>
      simp only [Option.isSome_none, Bool.false_eq_true, if_false, exPure_eq, exBind_ok,
        pyGet_ok_of_isObj hobj]
      rcases hh with ⟨hf, hn⟩ | ⟨h, he, hne, hs⟩
      · subst hn
        rw [hf]
        simp
      · subst he
        subst hs
        rw [if_pos (by simp [hintTruthy, hne])]
        cases hT : info.lookup "TailscaleIPs" with
        | none => simp [getD, hT, pyIter, exBind_ok]
        | some tv =>
          rw [hT] at htip
          cases tv with
          | arr l2 => simp [getD, hT, pyIter, exBind_ok]
          | null => simp [optStrArrField] at htip
          | bool b => simp [optStrArrField] at htip
          | num n => simp [optStrArrField] at htip
          | str t => simp [optStrArrField] at htip
          | obj o => simp [optStrArrField] at htip

theorem findMatch_typed (enid : JVal) (enip hint : Option String)
    (items : List (String × JVal))
    (hh : (hintTruthy enip = false ∧ hint = none) ∨
      (∃ h, enip = some h ∧ h ≠ "" ∧ hint = some h)) :
    (∀ p ∈ items, wtDevice p.2 = true) →
    findMatch enid enip items =
      .ok ((items.find? (fun p => specRuleMatch (pyStr enid) hint p.1 p.2)).map Prod.snd) := by
  induction items with
  | nil => intro _; rfl
  | cons p rest ih =>
    intro hw
    have hwp := hw p (by simp)
    have hwr : ∀ q ∈ rest, wtDevice q.2 = true := fun q hq => hw q (by simp [hq])
    simp only [findMatch]
    rw [peerMatched_typed enid enip hint p.1 p.2 hwp hh, exBind_ok]
    by_cases hm : specRuleMatch (pyStr enid) hint p.1 p.2 = true
    · simp [List.find?, hm, exPure_eq]
    · have hmf : specRuleMatch (pyStr enid) hint p.1 p.2 = false := by simpa using hm
      simp [List.find?, hmf, ih hwr]

theorem mkResolved_typed (enid : JVal) (enip hint : Option String) (info : JVal)
    (hw : wtDevice info = true)
    (hh : (hintTruthy enip = false ∧ hint = none) ∨
      (∃ h, enip = some h ∧ h ≠ "" ∧ hint = some h)) :
    mkResolved enid enip info = .ok (specMkNode (pyStr enid) hint info) := by
  obtain ⟨hobj, hdns, hhost, -, htip, -, -, -, -⟩ := wtDevice_parts hw
  obtain ⟨td, htd⟩ := getD_str_of_optStr "" hdns
  unfold mkResolved specMkNode
  simp only [pyGet_ok_of_isObj hobj, exBind_ok]
  rcases hh with ⟨hf, hn⟩ | ⟨h, he, hne, hs⟩
  · subst hn
    rw [hf]
    simp only [Bool.false_eq_true, if_false]
    rw [primaryIpExpr_typed hobj htip, exBind_ok]
    obtain ⟨u, hu⟩ := specPrimary_str htip
    rw [hu, strip_str u, htd]
    split_ifs <;> simp [exPure_eq, exBind_ok, strOf, ← hu]
  · subst he
    subst hs
    rw [if_pos (by simp [hintTruthy, hne])]
    simp only [Option.getD_some, exPure_eq, exBind_ok]
    rw [strip_str h, htd]
    split_ifs <;> simp [exPure_eq, exBind_ok, strOf]

/-- C3 (amended): provided the snapshot contains a `Self` record, the
resolver matches peers first and self last with first match winning, in the
order: peer identifier equality, declared `ID` field equality, address-hint
membership after stripping any `/prefix` suffix; self is matched by
identifier equality only and no match yields `none` — formally,
`get_current_exit_node` coincides with the specification resolver
`specResolve`.  Without a `Self` record the source returns `none`
unconditionally, even when a peer matches (see the counterexample). -/
theorem c3_resolution_cascade (v : JVal)
    (hw : wtStatus v = true) (hs : (v.lookup "Self").isSome = true) :
    get_current_exit_node (some v) = specResolve v := by
  obtain ⟨hobj, -, -, -, -, -, hSelfT, hPeerT⟩ := wtStatus_parts hw
  obtain ⟨s, hS⟩ := Option.isSome_iff_exists.mp hs
  have htr : truthy v = true := truthy_of_lookup_some hS
  simp only [get_current_exit_node, htr, Bool.not_true, Bool.false_eq_true, if_false]
  cases v with
  | obj fs =>
    rw [hS] at hSelfT
    have hws : wtDevice s = true := by simpa [optDeviceField] using hSelfT
    have hsobj : isObj s = true := (wtDevice_parts hws).1
    cases hE : extractId (JVal.obj fs) with
    | error e =>
      have hg : goCEN (JVal.obj fs) = .error e := by
        simp only [goCEN]
        rw [hE, exBind_error]
      rw [hg]
      simp only [specResolve]
      rw [hE]
    | ok enid =>
      have hmain : goCEN (JVal.obj fs) = .ok (specResolve (JVal.obj fs)) := by
        simp only [goCEN]
        rw [hE, exBind_ok]
        simp only [hS, specResolve, hE]
        by_cases ht : truthy enid = true
        · rw [if_neg (by simp [ht]), if_neg (by simp [ht])]
          obtain ⟨enip, hip, hrel⟩ := exitNodeIp_typed hw
          rw [hip, exBind_ok]
          cases hP : (JVal.obj fs).lookup "Peer" with
          | some pv =>
            rw [hP] at hPeerT
            cases pv with
            | obj ps =>
              have hwps : ∀ q ∈ ps, wtDevice q.2 = true := by
                rw [show wtPeers (some (JVal.obj ps)) = ps.all (fun p => wtDevice p.2) from rfl,
                  List.all_eq_true] at hPeerT
                exact hPeerT
              simp only [pyItems, exBind_ok]
              rw [findMatch_typed enid enip (specHint (JVal.obj fs)) ps hrel hwps, exBind_ok]
              cases hF : ps.find?
                  (fun p => specRuleMatch (pyStr enid) (specHint (JVal.obj fs)) p.1 p.2) with
              | some p =>
                have hpmem : p ∈ ps := List.mem_of_find?_eq_some hF
                simp only [Option.map_some']
                rw [mkResolved_typed enid enip (specHint (JVal.obj fs)) p.2
                  (hwps p hpmem) hrel, exBind_ok, exPure_eq]
              | none =>
                simp only [Option.map_none']
                rw [pyGet_ok_of_isObj hsobj, exBind_ok]
                by_cases heq : (pyStr (getD s "ID" (.str "")) == pyStr enid) = true
                · rw [if_pos heq, if_pos heq]
                  rw [mkResolved_typed enid enip (specHint (JVal.obj fs)) s hws hrel,
                    exBind_ok, exPure_eq]
                · rw [if_neg heq, if_neg heq]
                  rfl
            | null => simp [wtPeers] at hPeerT
            | bool b => simp [wtPeers] at hPeerT
            | num n => simp [wtPeers] at hPeerT
            | str t => simp [wtPeers] at hPeerT
            | arr l => simp [wtPeers] at hPeerT
          | none =>
            simp only [exPure_eq, exBind_ok, List.find?_nil]
            rw [pyGet_ok_of_isObj hsobj, exBind_ok]
            by_cases heq : (pyStr (getD s "ID" (.str "")) == pyStr enid) = true
            · rw [if_pos heq, if_pos heq]
              rw [mkResolved_typed enid enip (specHint (JVal.obj fs)) s hws hrel,
                exBind_ok]
            · rw [if_neg heq, if_neg heq]
        · have htf : truthy enid = false := by simpa using ht
          rw [if_pos (by simp [htf]), if_pos (by simp [htf])]
          rfl
      rw [hmain]
  | null => simp [JVal.lookup] at hS
  | bool b => simp [JVal.lookup] at hS
  | num n => simp [JVal.lookup] at hS
  | str t => simp [JVal.lookup] at hS
  | arr l => simp [JVal.lookup] at hS
theorem c3_witness :
    wtStatus snapC = true ∧ ((snapC.lookup "Self").isSome = true) ∧
    get_current_exit_node (some snapC) = specResolve snapC ∧
    get_current_exit_node (some snapC) =
      some ⟨"stable1", .str "pc.ts.net", .str "100.64.0.5", .str "pc"⟩ :=
  ⟨rfl, rfl, c3_resolution_cascade snapC rfl rfl, rfl⟩
